import Mathlib

/-!
Shallow embedding of the `rdr` repository (JPSS RDR creation library) for
checking its natural-language specification.

Conventions used throughout:
* Rust `u16`/`u32`/`u64`/`usize` values are modelled as `Nat`; wrapping
  arithmetic is written out explicitly (`% 2 ^ 64`) at the points where the
  source performs machine arithmetic that can wrap in release builds.
* Rust `i32`/`i64` values are modelled as `Int`; the fallible conversions
  (`i32::try_from`, `i64::try_from`) appear as explicit range checks.
* Rust `String` values are modelled as their UTF-8 byte lists (`List Nat`),
  so that the byte-level codec can be stated exactly.
* Rust `HashMap`/`HashSet` are modelled as association lists in insertion
  order.  All properties proved below are insensitive to the hash map's
  (unspecified) iteration order: the source sorts keys wherever order is
  observable, or only order-independent sums and set memberships matter.
* A Rust panic (slice index out of range, `assert!`, arithmetic overflow in
  debug builds) is modelled as `Option.none` where the panic is reachable.
-/

deriving instance DecidableEq for Except

namespace RdrLib

/-- Slice `l[a..b]` of a byte list, used to model Rust subslicing after the
bounds have been checked. -/
def byteSlice (l : List Nat) (a b : Nat) : List Nat :=
  (l.drop a).take (b - a)

/-- Big-endian bytes of a `u32` value (`u32::to_be_bytes`). -/
def toBE4 (n : Nat) : List Nat :=
  [n / 2 ^ 24 % 256, n / 2 ^ 16 % 256, n / 2 ^ 8 % 256, n % 256]

/-- Big-endian bytes of a `u64` value (`u64::to_be_bytes`). -/
def toBE8 (n : Nat) : List Nat :=
  [n / 2 ^ 56 % 256, n / 2 ^ 48 % 256, n / 2 ^ 40 % 256, n / 2 ^ 32 % 256,
   n / 2 ^ 24 % 256, n / 2 ^ 16 % 256, n / 2 ^ 8 % 256, n % 256]

/-- Value of four big-endian bytes (`u32::from_be_bytes`). -/
def fromBE4 (l : List Nat) : Nat :=
  l.getD 0 0 * 2 ^ 24 + l.getD 1 0 * 2 ^ 16 + l.getD 2 0 * 2 ^ 8 + l.getD 3 0

/-- Value of eight big-endian bytes (`u64::from_be_bytes`). -/
def fromBE8 (l : List Nat) : Nat :=
  l.getD 0 0 * 2 ^ 56 + l.getD 1 0 * 2 ^ 48 + l.getD 2 0 * 2 ^ 40 +
    l.getD 3 0 * 2 ^ 32 + l.getD 4 0 * 2 ^ 24 + l.getD 5 0 * 2 ^ 16 +
    l.getD 6 0 * 2 ^ 8 + l.getD 7 0

/-- Big-endian bytes of an `i32` value, two's complement
(`i32::to_be_bytes`). -/
def toBE4i (v : Int) : List Nat := toBE4 (v % 2 ^ 32).toNat

/-- Big-endian bytes of an `i64` value, two's complement
(`i64::to_be_bytes`). -/
def toBE8i (v : Int) : List Nat := toBE8 (v % 2 ^ 64).toNat

/-- The `i32` denoted by four big-endian bytes (`i32::from_be_bytes`). -/
def fromBE4i (l : List Nat) : Int :=
  let n := fromBE4 l
  if n < 2 ^ 31 then (n : Int) else (n : Int) - 2 ^ 32

/-- The `i64` denoted by eight big-endian bytes (`i64::from_be_bytes`). -/
def fromBE8i (l : List Nat) : Int :=
  let n := fromBE8 l
  if n < 2 ^ 63 then (n : Int) else (n : Int) - 2 ^ 64

/-- Model of `copy_with_len(dst, src, len)` on a fresh zero buffer: the first
`len` bytes of `src`, NUL-padded up to exactly `len` bytes. -/
def padTrunc (src : List Nat) (len : Nat) : List Nat :=
  src.take len ++ List.replicate (len - src.length) 0

/-- One step of UTF-8 validation: given a leading byte and the remaining
input, consume the continuation bytes of the sequence it starts, returning
the rest of the input, or `none` if the sequence is ill-formed.  This encodes
the exact byte ranges accepted by `std::str::from_utf8` (including the
`E0`/`ED`/`F0`/`F4` restrictions that exclude overlong forms and
surrogates). -/
def utf8Step (b : Nat) (rest : List Nat) : Option (List Nat) :=
  if b < 0x80 then some rest
  else if b < 0xC2 then none
  else if b < 0xE0 then
    match rest with
    | c :: rest2 => if 0x80 ≤ c ∧ c < 0xC0 then some rest2 else none
    | [] => none
  else if b < 0xF0 then
    match rest with
    | c :: d :: rest2 =>
      if (if b = 0xE0 then 0xA0 else 0x80) ≤ c ∧ c < (if b = 0xED then 0xA0 else 0xC0) ∧
          0x80 ≤ d ∧ d < 0xC0 then some rest2 else none
    | _ => none
  else if b < 0xF5 then
    match rest with
    | c :: d :: e :: rest2 =>
      if (if b = 0xF0 then 0x90 else 0x80) ≤ c ∧ c < (if b = 0xF4 then 0x90 else 0xC0) ∧
          0x80 ≤ d ∧ d < 0xC0 ∧ 0x80 ≤ e ∧ e < 0xC0 then some rest2 else none
    | _ => none
  else none

/-- Iterated UTF-8 validation; the fuel is an upper bound on the number of
sequences, and each step consumes at least one byte, so fuel equal to the
input length never runs out. -/
def utf8ValidFuel : Nat → List Nat → Bool
  | _, [] => true
  | 0, _ :: _ => false
  | fuel + 1, b :: rest =>
    match utf8Step b rest with
    | none => false
    | some rest2 => utf8ValidFuel fuel rest2

/-- UTF-8 validity of a byte list, as checked by `std::str::from_utf8`. -/
def utf8Valid (l : List Nat) : Bool := utf8ValidFuel l.length l

/-- NUL bytes trimmed from both ends (`str::trim_matches('\0')`). -/
def trimNuls (l : List Nat) : List Nat :=
  ((l.dropWhile (· == 0)).reverse.dropWhile (· == 0)).reverse

/-- Record kinds named by `Error::NotEnoughBytes`; an inductive stands in for
the `&'static str` tags used by the source. -/
inductive RecKind where
  | staticHeader
  | apidInfo
  | packetTracker
deriving DecidableEq

/-- Primary header of a CCSDS space packet, as exposed by the external
`ccsds` crate: a 16-bit APID and a 14-bit sequence id. -/
structure PrimaryHeader where
  apid : Nat
  sequence_id : Nat
deriving DecidableEq

/-- A CCSDS space packet: primary header plus payload bytes. -/
structure Packet where
  header : PrimaryHeader
  data : List Nat
deriving DecidableEq

/-- Variants of `RdrError`.  The snapshot mixes crate generations: the first
four constructors are the ones declared in `error.rs`; the last two are the
constructors actually applied by `rdr.rs` and `collector.rs`. -/
inductive RdrError where
  | invalidTime (iet : Nat)
  | invalidPktHeader (hdr : PrimaryHeader)
  | invalidPktApid (product : List Nat) (apid : Nat)
  | intError
  | invalidPacket (hdr : PrimaryHeader)
  | invalidGranuleStart (iet : Nat)
deriving DecidableEq

/-- Variants of the top-level `Error` that the modelled code paths can
produce. -/
inductive Error where
  | notEnoughBytes (kind : RecKind)
  | utf8Error
  | configInvalid
  | rdrError (e : RdrError)
deriving DecidableEq

/-- Model of the `to_str!` macro: UTF-8 validation followed by trimming NUL
bytes from both ends. -/
def to_str (l : List Nat) : Except Error (List Nat) :=
  if utf8Valid l then .ok (trimNuls l) else .error .utf8Error

/-- Wrapping `u64` subtraction (`a - b` in a release build); both arguments
are `u64` values, i.e. below `2 ^ 64`. -/
def u64wrapSub (a b : Nat) : Nat := (a + (2 ^ 64 - b % 2 ^ 64)) % 2 ^ 64

/-- Model of `get_granule_start` from `rdr.rs`.  The subtraction
`iet - base_time` is `u64` arithmetic and wraps when `iet < base_time`; the
division truncates (Rust `u64` division; `gran_len = 0` would panic in Rust
and is excluded by hypotheses wherever this matters). -/
def get_granule_start (iet gran_len base_time : Nat) : Nat :=
  let seconds_since_base := u64wrapSub iet base_time
  let granule_number := seconds_since_base / gran_len
  let ms := granule_number * gran_len % 2 ^ 64
  (ms + base_time) % 2 ^ 64

/-- The 72-byte static header of a Common RDR (`StaticHeader` in `rdr.rs`).
String fields hold the UTF-8 bytes of the corresponding Rust `String`. -/
structure StaticHeader where
  satellite : List Nat
  sensor : List Nat
  type_id : List Nat
  num_apids : Nat
  apid_list_offset : Nat
  pkt_tracker_offset : Nat
  ap_storage_offset : Nat
  next_pkt_position : Nat
  start_boundary : Nat
  end_boundary : Nat
deriving DecidableEq

namespace StaticHeader

def LEN : Nat := 72

/-- Encoding of a static header (`StaticHeader::as_bytes`): the successive
`copy_from_slice` calls lay the fields out back to back. -/
def as_bytes (h : StaticHeader) : List Nat :=
  padTrunc h.satellite 4 ++ padTrunc h.sensor 16 ++ padTrunc h.type_id 16 ++
    toBE4 h.num_apids ++ toBE4 h.apid_list_offset ++ toBE4 h.pkt_tracker_offset ++
    toBE4 h.ap_storage_offset ++ toBE4 h.next_pkt_position ++
    toBE8 h.start_boundary ++ toBE8 h.end_boundary

/-- Decoding of a static header (`StaticHeader::from_bytes`). -/
def from_bytes (data : List Nat) : Except Error StaticHeader :=
  if data.length < LEN then .error (.notEnoughBytes .staticHeader) else do
    let satellite ← to_str (byteSlice data 0 4)
    let sensor ← to_str (byteSlice data 4 20)
    let type_id ← to_str (byteSlice data 20 36)
    .ok { satellite, sensor, type_id,
          num_apids := fromBE4 (byteSlice data 36 40),
          apid_list_offset := fromBE4 (byteSlice data 40 44),
          pkt_tracker_offset := fromBE4 (byteSlice data 44 48),
          ap_storage_offset := fromBE4 (byteSlice data 48 52),
          next_pkt_position := fromBE4 (byteSlice data 52 56),
          start_boundary := fromBE8 (byteSlice data 56 64),
          end_boundary := fromBE8 (byteSlice data 64 72) }

end StaticHeader

/-- One 32-byte entry of the APID list (`ApidInfo` in `rdr.rs`). -/
structure ApidInfo where
  name : List Nat
  value : Nat
  pkt_tracker_start_idx : Nat
  pkts_reserved : Nat
  pkts_received : Nat
deriving DecidableEq

namespace ApidInfo

def LEN : Nat := 32

/-- Fresh APID-list entry (`ApidInfo::new`): counts zero and
`pkt_tracker_start_idx` initialised to `u32::MAX`. -/
def new (name : List Nat) (val : Nat) : ApidInfo :=
  { name, value := val, pkt_tracker_start_idx := 2 ^ 32 - 1,
    pkts_reserved := 0, pkts_received := 0 }

/-- Encoding of an APID-list entry (`ApidInfo::as_bytes`). -/
def as_bytes (i : ApidInfo) : List Nat :=
  padTrunc i.name 16 ++ toBE4 i.value ++ toBE4 i.pkt_tracker_start_idx ++
    toBE4 i.pkts_reserved ++ toBE4 i.pkts_received

/-- Decoding of an APID-list entry (`ApidInfo::from_bytes`). -/
def from_bytes (data : List Nat) : Except Error ApidInfo :=
  if data.length < LEN then .error (.notEnoughBytes .apidInfo) else do
    let name ← to_str (byteSlice data 0 16)
    .ok { name,
          value := fromBE4 (byteSlice data 16 20),
          pkt_tracker_start_idx := fromBE4 (byteSlice data 20 24),
          pkts_reserved := fromBE4 (byteSlice data 24 28),
          pkts_received := fromBE4 (byteSlice data 28 32) }

end ApidInfo

/-- One 24-byte packet tracker (`PacketTracker` in `rdr.rs`); all fields are
signed in the source. -/
structure PacketTracker where
  obs_time : Int
  sequence_number : Int
  size : Int
  offset : Int
  fill_percent : Int
deriving DecidableEq

namespace PacketTracker

def LEN : Nat := 24

/-- Encoding of a packet tracker (`PacketTracker::as_bytes`). -/
def as_bytes (t : PacketTracker) : List Nat :=
  toBE8i t.obs_time ++ toBE4i t.sequence_number ++ toBE4i t.size ++
    toBE4i t.offset ++ toBE4i t.fill_percent

/-- Decoding of a packet tracker (`PacketTracker::from_bytes`). -/
def from_bytes (data : List Nat) : Except Error PacketTracker :=
  if data.length < LEN then .error (.notEnoughBytes .packetTracker) else
    .ok { obs_time := fromBE8i (byteSlice data 0 8),
          sequence_number := fromBE4i (byteSlice data 8 12),
          size := fromBE4i (byteSlice data 12 16),
          offset := fromBE4i (byteSlice data 16 20),
          fill_percent := fromBE4i (byteSlice data 20 24) }

end PacketTracker

/-- Chunks of `n` elements (`slice::chunks`); the final chunk may be
shorter.  Only used with `n > 0`; the fuel (one unit per chunk, each chunk
consuming at least one element) keeps the recursion structural. -/
def listChunksFuel (n : Nat) : Nat → List α → List (List α)
  | _, [] => []
  | 0, _ :: _ => []
  | fuel + 1, x :: xs => (x :: xs.take (n - 1)) :: listChunksFuel n fuel (xs.drop (n - 1))

/-- Chunks of `n` elements (`slice::chunks`) of a list. -/
def listChunks (n : Nat) (l : List α) : List (List α) :=
  listChunksFuel n l.length l

/-- The APID-list decoding loop of `CommonRdr::from_bytes`: full chunks are
decoded, a short trailing chunk stops the loop. -/
def decodeApidChunks : List (List Nat) → Except Error (List ApidInfo)
  | [] => .ok []
  | c :: cs =>
    if c.length < ApidInfo.LEN then .ok [] else do
      let i ← ApidInfo.from_bytes c
      let rest ← decodeApidChunks cs
      .ok (i :: rest)

/-- The tracker decoding loop of `CommonRdr::from_bytes`. -/
def decodeTrackerChunks : List (List Nat) → Except Error (List PacketTracker)
  | [] => .ok []
  | c :: cs =>
    if c.length < PacketTracker.LEN then .ok [] else do
      let t ← PacketTracker.from_bytes c
      let rest ← decodeTrackerChunks cs
      .ok (t :: rest)

/-- A decoded Common RDR (`CommonRdr` in `rdr.rs`). -/
structure CommonRdr where
  static_header : StaticHeader
  apid_list : List ApidInfo
  packet_trackers : List PacketTracker
deriving DecidableEq

namespace CommonRdr

/-- Model of `CommonRdr::from_bytes`.  `none` models a Rust panic: the source
slices `data[..StaticHeader::LEN]` and `data[start..end]` before checking any
length, and asserts `apid_list_offset == StaticHeader::LEN`. -/
def from_bytes (data : List Nat) : Option (Except Error CommonRdr) :=
  if data.length < StaticHeader.LEN then none else
  match StaticHeader.from_bytes (data.take StaticHeader.LEN) with
  | .error e => some (.error e)
  | .ok static_header =>
    if static_header.apid_list_offset ≠ StaticHeader.LEN then none else
    let e1 := static_header.pkt_tracker_offset
    if e1 < StaticHeader.LEN ∨ data.length < e1 then none else
    match decodeApidChunks (listChunks ApidInfo.LEN (byteSlice data StaticHeader.LEN e1)) with
    | .error e => some (.error e)
    | .ok apid_list =>
      let e2 := static_header.ap_storage_offset
      if e2 < e1 ∨ data.length < e2 then none else
      match decodeTrackerChunks (listChunks PacketTracker.LEN (byteSlice data e1 e2)) with
      | .error e => some (.error e)
      | .ok packet_trackers => some (.ok { static_header, apid_list, packet_trackers })

end CommonRdr

/-- Lookup in an association list modelling a `HashMap` (first match). -/
def lookupA [DecidableEq κ] (l : List (κ × α)) (k : κ) : Option α :=
  match l with
  | [] => none
  | (k', v) :: rest => if k' = k then some v else lookupA rest k

/-- Update the value of an existing key (`HashMap::get_mut` followed by
mutation); keys are unchanged. -/
def updateA [DecidableEq κ] (l : List (κ × α)) (k : κ) (v : α) : List (κ × α) :=
  match l with
  | [] => []
  | (k', v') :: rest => if k' = k then (k, v) :: rest else (k', v') :: updateA rest k v

/-- Insert-or-replace (`HashMap::insert` / `entry().or_insert_with`): replace
the value if the key is present, else append the pair. -/
def insertA [DecidableEq κ] (l : List (κ × α)) (k : κ) (v : α) : List (κ × α) :=
  match l with
  | [] => [(k, v)]
  | (k', v') :: rest => if k' = k then (k, v) :: rest else (k', v') :: insertA rest k v

/-- Remove a key (`HashMap::remove`). -/
def eraseA [DecidableEq κ] (l : List (κ × α)) (k : κ) : List (κ × α) :=
  match l with
  | [] => []
  | (k', v') :: rest => if k' = k then rest else (k', v') :: eraseA rest k

/-- One APID of a product (`ApidSpec` in `config.rs`). -/
structure ApidSpec where
  num : Nat
  name : List Nat
  max_expected : Nat
deriving DecidableEq

/-- Satellite configuration (`SatSpec` in `config.rs`). -/
structure SatSpec where
  id : List Nat
  short_name : List Nat
  base_time : Nat
  mission : List Nat
deriving DecidableEq

/-- Product configuration (`ProductSpec` in `config.rs`). -/
structure ProductSpec where
  product_id : List Nat
  sensor : List Nat
  short_name : List Nat
  type_id : List Nat
  gran_len : Nat
  apids : List ApidSpec
deriving DecidableEq

/-- RDR packing configuration (`RdrSpec` in `config.rs`). -/
structure RdrSpec where
  product : List Nat
  packed_with : List (List Nat)
deriving DecidableEq

namespace StaticHeader

/-- Model of `StaticHeader::new`: fixed fields from the product and granule
time, computed offsets left at zero (filled in by `compile`). -/
def new (time : Nat) (sat : List Nat) (product : ProductSpec) : StaticHeader :=
  { satellite := sat, sensor := product.sensor, type_id := product.type_id,
    num_apids := product.apids.length,
    apid_list_offset := LEN,
    pkt_tracker_offset := 0, ap_storage_offset := 0, next_pkt_position := 0,
    start_boundary := time, end_boundary := time + product.gran_len }

end StaticHeader

/-- Accumulator state for one (product, granule) key (`RdrData` in `rdr.rs`).
`ap_storage_offset` is an `i32` in the source; it stays non-negative and is
modelled as `Nat` (overflow past `i32::MAX` would panic in a debug build and
is excluded by the bounds carried by the theorems below). -/
structure RdrData where
  short_name : List Nat
  header : StaticHeader
  apid_list : List (Nat × ApidInfo)
  trackers : List (Nat × List PacketTracker)
  ap_storage : List (Nat × Packet)
  ap_storage_offset : Nat
deriving DecidableEq

namespace RdrData

/-- Model of `RdrData::new`.  The source collects `product.apids` into a
`HashMap`; with duplicate APID numbers the last entry would win, a case the
theorems exclude via a `Nodup` hypothesis on the configured APIDs. -/
def new (sat : SatSpec) (product : ProductSpec) (time : Nat) : RdrData :=
  { short_name := product.short_name,
    apid_list := product.apids.map fun a => (a.num, ApidInfo.new a.name a.num),
    header := StaticHeader.new time sat.short_name product,
    trackers := [], ap_storage := [], ap_storage_offset := 0 }

/-- Model of `RdrData::add_packet`.  Mirrors the source's mutation order: on
an error the state already mutated is kept, as with `&mut self` in Rust
(count increments happen first; `entry().or_default()` inserts the tracker
list before the observation-time conversion, and pushing onto it equals
inserting the extended list).  `i32::try_from(len)` succeeds iff
`len < 2 ^ 31`; `i64::try_from(iet)` succeeds iff `iet < 2 ^ 63`. -/
def add_packet (d : RdrData) (pkt_time : Nat) (pkt : Packet) :
    RdrData × Except Error Unit :=
  match lookupA d.apid_list pkt.header.apid with
  | none => (d, .error (.rdrError (.invalidPacket pkt.header)))
  | some info =>
    if pkt.data.length < 2 ^ 31 then
      if pkt_time < 2 ^ 63 then
        ({ d with
            apid_list := updateA d.apid_list pkt.header.apid
              { info with pkts_reserved := info.pkts_reserved + 1,
                          pkts_received := info.pkts_received + 1 },
            trackers := insertA d.trackers pkt.header.apid
              ((lookupA d.trackers pkt.header.apid).getD [] ++
                [{ obs_time := (pkt_time : Int),
                   sequence_number := (pkt.header.sequence_id : Int),
                   size := (pkt.data.length : Int),
                   offset := (d.ap_storage_offset : Int),
                   fill_percent := 0 }]),
            ap_storage := d.ap_storage ++ [(pkt_time, pkt)],
            ap_storage_offset := d.ap_storage_offset + pkt.data.length }, .ok ())
      else
        ({ d with
            apid_list := updateA d.apid_list pkt.header.apid
              { info with pkts_reserved := info.pkts_reserved + 1,
                          pkts_received := info.pkts_received + 1 },
            trackers := insertA d.trackers pkt.header.apid
              ((lookupA d.trackers pkt.header.apid).getD []) },
          .error (.rdrError (.invalidTime pkt_time)))
    else
      ({ d with
          apid_list := updateA d.apid_list pkt.header.apid
            { info with pkts_reserved := info.pkts_reserved + 1,
                        pkts_received := info.pkts_received + 1 } },
        .error (.rdrError (.invalidPacket pkt.header)))

/-- The APIDs of the accumulator in ascending numeric order
(`apids.sort_unstable()` in `compile`; on the duplicate-free keys of the
APID map every comparison sort produces the same ascending list, so a
structural insertion sort models it). -/
def sortedApids (d : RdrData) : List Nat :=
  List.insertionSort (fun a b => a ≤ b) (d.apid_list.map Prod.fst)

/-- The first loop of `compile`: walk the APIDs in sorted order assigning
`pkt_tracker_start_idx` as the running sum of the previous APIDs' received
counts.  The `none` branch is unreachable (the source uses `expect`): the
keys are drawn from the map itself. -/
def assignIdx (off : Nat) (apids : List Nat) (m : List (Nat × ApidInfo)) :
    List ApidInfo :=
  match apids with
  | [] => []
  | a :: rest =>
    match lookupA m a with
    | none => assignIdx off rest m
    | some i =>
      { i with pkt_tracker_start_idx := off } :: assignIdx (off + i.pkts_received) rest m

/-- APID list as emitted by `compile`: ascending APID order, start indices
assigned. -/
def compiledApidList (d : RdrData) : List ApidInfo :=
  assignIdx 0 d.sortedApids d.apid_list

/-- Trackers as emitted by `compile`: grouped by ascending APID, insertion
order preserved within a group. -/
def trackerList (d : RdrData) : List PacketTracker :=
  (d.sortedApids.map fun a => (lookupA d.trackers a).getD []).flatten

/-- Header as emitted by `compile`: the computed offsets and
`next_pkt_position` filled in.  The tracker count is summed over the tracker
map's values exactly as in the source. -/
def finalHeader (d : RdrData) : StaticHeader :=
  let pto := d.header.apid_list_offset + d.apid_list.length * ApidInfo.LEN
  let tracker_count := (d.trackers.map fun e => e.2.length).sum
  { d.header with
    pkt_tracker_offset := pto,
    ap_storage_offset := pto + tracker_count * PacketTracker.LEN,
    next_pkt_position := d.ap_storage_offset }

/-- The application-packet storage region: payloads in arrival order. -/
def storageBytes (d : RdrData) : List Nat :=
  (d.ap_storage.map fun e => e.2.data).flatten

/-- Model of `RdrData::compile`: header, APID list, trackers grouped by the
same APID order, then payloads in arrival order.  The only fallible step the
source has is `u32::try_from(apid_list.len() * ApidInfo::LEN)`. -/
def compile (d : RdrData) : Except Error (List Nat) :=
  if d.apid_list.length * ApidInfo.LEN < 2 ^ 32 then
    .ok (d.finalHeader.as_bytes ++
      (d.compiledApidList.map ApidInfo.as_bytes).flatten ++
      (d.trackerList.map PacketTracker.as_bytes).flatten ++
      d.storageBytes)
  else .error (.rdrError .intError)

end RdrData

/-- Insert into a `HashSet` modelled as a duplicate-free list. -/
def insertS [DecidableEq κ] (l : List κ) (k : κ) : List κ :=
  if k ∈ l then l else l ++ [k]

/-- Reinterpretation of a `u64` value as `i64` (`as i64`). -/
def castI64 (n : Nat) : Int :=
  if n < 2 ^ 63 then (n : Int) else (n : Int) - 2 ^ 64

/-- An RDR emitted by the collector.  The snapshot's `collector.rs` predates
`Rdr::from_data`; an emitted value is modelled by the compiled bytes together
with the pieces of granule metadata the collector itself consumes: the
product id of the table key and the accumulator header's granule
boundaries (the fields `overlapping_packed_rdrs` reads as
`meta.begin_time_iet` / `meta.end_time_iet`). -/
structure EmittedRdr where
  product_id : List Nat
  begin_iet : Nat
  end_iet : Nat
  data : List Nat
deriving DecidableEq

/-- Collector state (`Collector` in `collector.rs`). -/
structure Collector where
  sat : SatSpec
  primary_ids : List (List Nat × List (List Nat))
  packed_ids : List (List Nat)
  products : List (List Nat × ProductSpec)
  ids : List (Nat × List Nat)
  primary : List ((List Nat × Nat) × RdrData)
  packed : List ((List Nat × Nat) × RdrData)
deriving DecidableEq

namespace Collector

/-- Model of `Collector::new`. -/
def new (sat : SatSpec) (rdrs : List RdrSpec) (products : List ProductSpec) :
    Collector :=
  let c0 : Collector := ⟨sat, [], [], [], [], [], []⟩
  let c1 := products.foldl (fun c p =>
    { c with
      products := insertA c.products p.product_id p,
      ids := p.apids.foldl (fun m a => insertA m a.num p.product_id) c.ids }) c0
  rdrs.foldl (fun c r =>
    { c with
      primary_ids := insertA c.primary_ids r.product r.packed_with,
      packed_ids := r.packed_with.foldl insertS c.packed_ids }) c1

/-- Inner loop of `overlapping_packed_rdrs`: the source iterates over ALL
packed entries, binding the key pattern `((_, packed_time), data)` — the
entry's own product id is ignored, only the granule time is compared, using
the granule length of the OUTER loop's packed product. -/
def overlappingInner (primary_gran_start primary_gran_end packed_gran_len : Int) :
    List ((List Nat × Nat) × RdrData) → List EmittedRdr
  | [] => []
  | ((pid, ptime), data) :: rest =>
    let packed_gran_start : Int := castI64 ptime
    if primary_gran_start - packed_gran_len < packed_gran_start ∧
        packed_gran_start < primary_gran_end then
      match data.compile with
      | .ok bytes =>
        ⟨pid, data.header.start_boundary, data.header.end_boundary, bytes⟩ ::
          overlappingInner primary_gran_start primary_gran_end packed_gran_len rest
      | .error _ =>   -- warn and continue
        overlappingInner primary_gran_start primary_gran_end packed_gran_len rest
    else overlappingInner primary_gran_start primary_gran_end packed_gran_len rest

/-- Outer loop of `overlapping_packed_rdrs` over the configured packed
product ids.  `i64::try_from(gran_len)` fails iff `gran_len ≥ 2 ^ 63`,
producing `ConfigInvalid`. -/
def overlappingOuter (c : Collector) (primary_gran_start primary_gran_end : Int) :
    List (List Nat) → Except Error (List EmittedRdr)
  | [] => .ok []
  | packed_id :: rest =>
    match lookupA c.products packed_id with
    | none => overlappingOuter c primary_gran_start primary_gran_end rest
    | some packed_product =>
      if packed_product.gran_len < 2 ^ 63 then do
        let tail ← overlappingOuter c primary_gran_start primary_gran_end rest
        .ok (overlappingInner primary_gran_start primary_gran_end
          (packed_product.gran_len : Int) c.packed ++ tail)
      else .error .configInvalid

/-- Model of `Collector::overlapping_packed_rdrs`, taking the emitted
primary's granule boundaries (`meta.begin_time_iet` / `meta.end_time_iet`,
cast `as i64` in the source). -/
def overlapping_packed_rdrs (c : Collector) (begin_iet end_iet : Nat) :
    Except Error (List EmittedRdr) :=
  overlappingOuter c (castI64 begin_iet) (castI64 end_iet) c.packed_ids

/-- Model of `Collector::add`.  The outer `Option` models the
`assert!(self.packed_ids.contains(..))` panic for a product that is neither
primary nor packed; `none` is a panic.  The returned collector is the state
after the call, as with `&mut self`; on an error path it carries exactly the
mutations performed before the error. -/
def add (c : Collector) (pkt_time : Nat) (pkt : Packet) :
    Option (Collector × Except Error (Option (List EmittedRdr))) :=
  match lookupA c.ids pkt.header.apid with
  | none => some (c, .ok none)
  | some prod_id =>
    match lookupA c.products prod_id with
    | none => some (c, .ok none)   -- unreachable: `expect` on an existing id
    | some product =>
      let gran_time := get_granule_start pkt_time product.gran_len c.sat.base_time
      if gran_time < c.sat.base_time then
        some (c, .error (.rdrError (.invalidGranuleStart gran_time)))
      else
        let key := (product.product_id, gran_time)
        if (lookupA c.primary_ids prod_id).isSome then
          let d0 := (lookupA c.primary key).getD (RdrData.new c.sat product gran_time)
          let (d1, r) := d0.add_packet pkt_time pkt
          let c := { c with primary := insertA c.primary key d1 }
          match r with
          | .error e => some (c, .error e)
          | .ok _ =>
            let stl_key :=
              (product.product_id, u64wrapSub gran_time (product.gran_len * 2 % 2 ^ 64))
            match lookupA c.primary stl_key with
            | none => some (c, .ok none)
            | some data =>
              let c := { c with primary := eraseA c.primary stl_key }
              match data.compile with
              | .error _ => some (c, .ok none)   -- warn and return no output
              | .ok bytes =>
                let rdr : EmittedRdr :=
                  ⟨stl_key.1, data.header.start_boundary, data.header.end_boundary, bytes⟩
                match c.overlapping_packed_rdrs rdr.begin_iet rdr.end_iet with
                | .error e => some (c, .error e)
                | .ok packed => some (c, .ok (some (rdr :: packed)))
        else if product.product_id ∈ c.packed_ids then
          let d0 := (lookupA c.packed key).getD (RdrData.new c.sat product gran_time)
          let (d1, r) := d0.add_packet pkt_time pkt
          let c := { c with packed := insertA c.packed key d1 }
          match r with
          | .error e => some (c, .error e)
          | .ok _ => some (c, .ok none)
        else none   -- assert! fails

/-- Recursion of `Collector::finish` over the sorted keys.  The `none`
branch of the lookup is unreachable (`remove(..).expect(..)` on keys drawn
from the map).  The `?` on `overlapping_packed_rdrs` and the loop are
written as explicit matches on the `Except` values. -/
def finishGo (c : Collector) : List (List Nat × Nat) →
    Except Error (List (List EmittedRdr))
  | [] => .ok []
  | k :: rest =>
    match lookupA c.primary k with
    | none => finishGo c rest
    | some data =>
      match data.compile with
      | .error _ =>   -- warn and continue
        finishGo { c with primary := eraseA c.primary k } rest
      | .ok bytes =>
        match Collector.overlapping_packed_rdrs
            { c with primary := eraseA c.primary k }
            data.header.start_boundary data.header.end_boundary with
        | .error e => .error e
        | .ok packed =>
          match finishGo { c with primary := eraseA c.primary k } rest with
          | .error e => .error e
          | .ok rest2 =>
            .ok ((⟨k.1, data.header.start_boundary, data.header.end_boundary,
              bytes⟩ :: packed) :: rest2)

/-- Model of `Collector::finish`: flush the remaining primary accumulators
in ascending granule-time order (`sort_by` on the time component only;
insertion sort is stable, like Rust's `sort_by`). -/
def finish (c : Collector) : Except Error (List (List EmittedRdr)) :=
  finishGo c (List.insertionSort (fun a b => a.2 ≤ b.2) (c.primary.map Prod.fst))

end Collector

/-- Granule metadata (`GranuleMeta` in `rdr.rs`), restricted to the fields
`AggrMeta::from_rdrs` reads.  The remaining fields (creation date and time,
orbit number, status, version, mode, document reference, LEOA flag, packet
types and counts, percent missing, reference id, software version) are
copied nowhere in the modelled paths and are omitted. -/
structure GranuleMeta where
  begin_date : List Nat
  begin_time : List Nat
  begin_time_iet : Nat
  end_date : List Nat
  end_time : List Nat
  end_time_iet : Nat
  id : List Nat
deriving DecidableEq

/-- An RDR ready to be written (`Rdr` in `rdr.rs`): granule metadata,
product id, compiled Common-RDR bytes. -/
structure Rdr where
  meta : GranuleMeta
  product_id : List Nat
  data : List Nat
deriving DecidableEq

/-- Aggregate-dataset metadata (`AggrMeta` in `rdr.rs`; the field name
`begin_orbit_nubmer` keeps the source's spelling). -/
structure AggrMeta where
  begin_orbit_nubmer : Nat
  end_orbit_number : Nat
  num_granules : Nat
  begin_date : List Nat
  begin_time : List Nat
  begin_granule_id : List Nat
  end_date : List Nat
  end_time : List Nat
  end_granule_id : List Nat
deriving DecidableEq

/-- Model of `std::cmp::min_by` with the comparison on `begin_time_iet`: the
first argument wins ties. -/
def minByBegin (a b : Rdr) : Rdr :=
  if b.meta.begin_time_iet < a.meta.begin_time_iet then b else a

/-- Model of `std::cmp::max_by` with the comparison on `end_time_iet`: the
second argument wins ties. -/
def maxByEnd (a b : Rdr) : Rdr :=
  if b.meta.end_time_iet < a.meta.end_time_iet then a else b

/-- Model of `AggrMeta::from_rdrs`; `none` models the `assert!` panic on an
empty list.  The source's running `min_by`/`max_by` starts from
`unwrap_or(rdr)` on the first iteration, which compares the first element
with itself, so the fold starts at the head. -/
def AggrMeta.from_rdrs (rdrs : List Rdr) : Option AggrMeta :=
  match rdrs with
  | [] => none
  | r0 :: rest =>
    let start_rdr := rest.foldl minByBegin r0
    let end_rdr := rest.foldl maxByEnd r0
    some { begin_orbit_nubmer := 1, end_orbit_number := 1,
           num_granules := rdrs.length,
           begin_date := start_rdr.meta.begin_date,
           begin_time := start_rdr.meta.begin_time,
           begin_granule_id := start_rdr.meta.id,
           end_date := end_rdr.meta.end_date,
           end_time := end_rdr.meta.end_time,
           end_granule_id := end_rdr.meta.id }

/-- Whether a result is an `InvalidPktApid` error (the variant `error.rs`
declares for a misconfigured APID). -/
def isInvalidPktApid {α : Type} : Except Error α → Bool
  | .error (.rdrError (.invalidPktApid _ _)) => true
  | _ => false

/-- Example satellite for the concrete collector scenarios: base time 0. -/
def exSat : SatSpec := ⟨[110, 112, 112], [78, 80, 80], 0, [77]⟩

/-- Example primary product (id `P`, granule length 20, APID 100). -/
def exProdP : ProductSpec := ⟨[80], [86], [86, 80], [83], 20, [⟨100, [65], 1⟩]⟩

/-- Example packed product `A` with granule length 10 (APID 200). -/
def exProdA : ProductSpec := ⟨[65], [86], [86, 65], [83], 10, [⟨200, [66], 1⟩]⟩

/-- Example packed product `B` with granule length 100 (APID 201). -/
def exProdB : ProductSpec := ⟨[66], [86], [86, 66], [83], 100, [⟨201, [67], 1⟩]⟩

/-- Collector for the C4 scenario: primary `P` packed with `A` and `B`, and
one packed accumulator for product `A` at granule start 95. -/
def exC4collector : Collector :=
  { Collector.new exSat [⟨[80], [[65], [66]]⟩] [exProdP, exProdA, exProdB] with
    packed := [(([65], 95), RdrData.new exSat exProdA 95)] }

/-- The RDR the C4 scenario's packed accumulator compiles to. -/
def exC4rdr : EmittedRdr :=
  ⟨[65], 95, 105, ((RdrData.new exSat exProdA 95).compile).toOption.getD []⟩

/-- Satellite with the real JPSS mission base time. -/
def exSatBase : SatSpec := ⟨[110, 112, 112], [78, 80, 80], 1698019234000000, [77]⟩

/-- Collector for the C5 scenario: one primary product with granule length
11 on the real base time. -/
def exC5collector : Collector :=
  Collector.new exSatBase [⟨[80], []⟩] [⟨[80], [86], [86, 80], [83], 11, [⟨100, [65], 1⟩]⟩]

/-- Packet with APID 100 used by the collector scenarios. -/
def exPkt (seq : Nat) (payload : List Nat) : Packet := ⟨⟨100, seq⟩, payload⟩

/-- Test driver for the collector claims: fold timestamped packets through
`Collector::add`, collecting every emitted group (the scenarios below take
only `ok` paths; panics and errors leave the state as returned). -/
def runCollector (c : Collector) (pkts : List (Nat × Packet)) :
    Collector × List (List EmittedRdr) :=
  pkts.foldl (fun st tp =>
    match st.1.add tp.1 tp.2 with
    | some (c2, .ok (some g)) => (c2, st.2 ++ [g])
    | some (c2, _) => (c2, st.2)
    | none => st) (c, [])

/-- Granule start times of the emitted primary RDRs (each group's head),
restricted to one product. -/
def primaryBeginTimes (pid : List Nat) (groups : List (List EmittedRdr)) :
    List Nat :=
  ((groups.filterMap List.head?).filter fun r => r.product_id == pid).map
    fun r => r.begin_iet

/-- Primary product with granule length 10 for the C3 scenario. -/
def exProdP10 : ProductSpec := ⟨[80], [86], [86, 80], [83], 10, [⟨100, [65], 1⟩]⟩

/-- Collector for the C3 counterexample: one primary product, granule
length 10, base time 0. -/
def exC3collector : Collector := Collector.new exSat [⟨[80], []⟩] [exProdP10]

/-- Packets of the C3 counterexample: granules 40, 0, 60 in that arrival
order. -/
def exC3pkts : List (Nat × Packet) :=
  [(40, exPkt 1 [1]), (0, exPkt 2 [2]), (60, exPkt 3 [3])]

/-- Collector state for the C3 witness: two primary accumulators held with
granule times 30 and 10, listed out of order. -/
def exC3wCollector : Collector :=
  { Collector.new exSat [⟨[80], []⟩] [exProdP10] with
    primary := [(([80], 30), RdrData.new exSat exProdP10 30),
                (([80], 10), RdrData.new exSat exProdP10 10)] }

/-- Feed timestamped packets through `RdrData::add_packet`; `some` is the
final accumulator when every packet was accepted without error. -/
def addAllOk (d : RdrData) : List (Nat × Packet) → Option RdrData
  | [] => some d
  | (t, p) :: rest =>
    match d.add_packet t p with
    | (d2, .ok _) => addAllOk d2 rest
    | (_, .error _) => none

/-- Total byte size of the stored packet payloads. -/
def storageSize (storage : List (Nat × Packet)) : Nat :=
  (storage.map fun e => e.2.data.length).sum

/-- Number of stored packets with the given APID. -/
def countApid (a : Nat) (storage : List (Nat × Packet)) : Nat :=
  (storage.filter fun e => e.2.header.apid == a).length

/-- The stored packets annotated with their byte offsets into the
application-packet storage (the running `ap_storage_offset` at each
insertion). -/
def withOffsetsFrom (off : Nat) : List (Nat × Packet) → List (Nat × (Nat × Packet))
  | [] => []
  | (t, p) :: rest => (off, (t, p)) :: withOffsetsFrom (off + p.data.length) rest

/-- The tracker `add_packet` builds for a packet stored at byte offset
`off` and observed at IET time `t`. -/
def mkTracker (off : Nat) (t : Nat) (p : Packet) : PacketTracker :=
  { obs_time := (t : Int), sequence_number := (p.header.sequence_id : Int),
    size := (p.data.length : Int), offset := (off : Int), fill_percent := 0 }

/-- The trackers of one APID as determined by the storage: one per stored
packet with that APID, in insertion order. -/
def derivedTrackers (a : Nat) (storage : List (Nat × Packet)) : List PacketTracker :=
  (withOffsetsFrom 0 storage).filterMap fun e =>
    if e.2.2.header.apid = a then some (mkTracker e.1 e.2.1 e.2.2) else none

/-- Running prefix sums starting at `acc`: the `pkt_tracker_start_idx`
sequence `compile` assigns. -/
def prefixSumsFrom (acc : Nat) : List Nat → List Nat
  | [] => []
  | x :: xs => acc :: prefixSumsFrom (acc + x) xs

instance : IsTotal (List Nat × Nat) (fun a b => a.2 ≤ b.2) :=
  ⟨fun a b => Nat.le_total a.2 b.2⟩

instance : IsTrans (List Nat × Nat) (fun a b => a.2 ≤ b.2) :=
  ⟨fun _ _ _ hab hbc => le_trans hab hbc⟩

/-- Product configuration for the C1 and C2 witnesses: two APIDs listed out
of numeric order, so that the compile-time sort matters. -/
def exC1prod : ProductSpec :=
  ⟨[67], [86], [86, 67], [83], 20, [⟨101, [66], 1⟩, ⟨100, [65], 1⟩]⟩

/-- Packets for the C1 and C2 witnesses: three accepted packets over the two
configured APIDs. -/
def exC1pkts : List (Nat × Packet) :=
  [(1698019234000000, ⟨⟨100, 1⟩, [1, 2, 3]⟩),
   (1698019234000001, ⟨⟨101, 2⟩, [4]⟩),
   (1698019234000002, ⟨⟨100, 3⟩, [5, 6]⟩)]

/-- The accumulator state after feeding `exC1pkts` into a fresh accumulator
for `exC1prod`. -/
def exC1d : RdrData :=
  (addAllOk (RdrData.new exSatBase exC1prod 1698019234000000) exC1pkts).getD
    (RdrData.new exSatBase exC1prod 1698019234000000)

/-- Reachability invariant of an accumulator built by `RdrData.new` followed
by a run of successful `add_packet` calls: everything `compile` reads is
determined by the configuration and the stored packets. -/
structure Inv (sat : SatSpec) (product : ProductSpec) (time : Nat)
    (d : RdrData) : Prop where
  hdr : d.header = StaticHeader.new time sat.short_name product
  keys : d.apid_list.map Prod.fst = product.apids.map ApidSpec.num
  info : ∀ a i, lookupA d.apid_list a = some i →
    i.value = a ∧ i.pkts_received = countApid a d.ap_storage ∧
      i.pkts_reserved = countApid a d.ap_storage ∧
      ∃ sp, sp ∈ product.apids ∧ sp.num = a ∧ i.name = sp.name
  tkeys : (d.trackers.map Prod.fst).Nodup
  tsub : ∀ k, k ∈ d.trackers.map Prod.fst → k ∈ d.apid_list.map Prod.fst
  trk : ∀ a, (lookupA d.trackers a).getD [] = derivedTrackers a d.ap_storage
  off : d.ap_storage_offset = storageSize d.ap_storage
  stor : ∀ e, e ∈ d.ap_storage → e.2.data.length < 2 ^ 31 ∧ e.1 < 2 ^ 63

/-! Basic facts about the byte-level helpers. -/

/-- A Rust string that encodes and decodes without loss in a `w`-byte field:
ASCII, free of NUL bytes, no longer than the field. -/
def validStr (s : List Nat) (w : Nat) : Prop :=
  s.length ≤ w ∧ ∀ b ∈ s, 0 < b ∧ b < 128

instance (s : List Nat) (w : Nat) : Decidable (validStr s w) := by
  unfold validStr; infer_instance

/-- Value of a `StaticHeader` that survives the byte codec: strings fit
their fields and are ASCII without NUL bytes; numbers are in `u32`/`u64`
range. -/
def StaticHeader.Valid (h : StaticHeader) : Prop :=
  validStr h.satellite 4 ∧ validStr h.sensor 16 ∧ validStr h.type_id 16 ∧
    h.num_apids < 2 ^ 32 ∧ h.apid_list_offset < 2 ^ 32 ∧
    h.pkt_tracker_offset < 2 ^ 32 ∧ h.ap_storage_offset < 2 ^ 32 ∧
    h.next_pkt_position < 2 ^ 32 ∧ h.start_boundary < 2 ^ 64 ∧
    h.end_boundary < 2 ^ 64

instance (h : StaticHeader) : Decidable h.Valid := by
  unfold StaticHeader.Valid; infer_instance

/-- Value of an `ApidInfo` that survives the byte codec. -/
def ApidInfo.Valid (i : ApidInfo) : Prop :=
  validStr i.name 16 ∧ i.value < 2 ^ 32 ∧ i.pkt_tracker_start_idx < 2 ^ 32 ∧
    i.pkts_reserved < 2 ^ 32 ∧ i.pkts_received < 2 ^ 32

instance (i : ApidInfo) : Decidable i.Valid := by
  unfold ApidInfo.Valid; infer_instance

/-- Value of a `PacketTracker` that survives the byte codec: fields in
`i64`/`i32` range. -/
def PacketTracker.Valid (t : PacketTracker) : Prop :=
  -2 ^ 63 ≤ t.obs_time ∧ t.obs_time < 2 ^ 63 ∧
    -2 ^ 31 ≤ t.sequence_number ∧ t.sequence_number < 2 ^ 31 ∧
    -2 ^ 31 ≤ t.size ∧ t.size < 2 ^ 31 ∧
    -2 ^ 31 ≤ t.offset ∧ t.offset < 2 ^ 31 ∧
    -2 ^ 31 ≤ t.fill_percent ∧ t.fill_percent < 2 ^ 31

instance (t : PacketTracker) : Decidable t.Valid := by
  unfold PacketTracker.Valid; infer_instance

theorem toBE4_length (n : Nat) : (toBE4 n).length = 4 := rfl

theorem toBE8_length (n : Nat) : (toBE8 n).length = 8 := rfl

theorem toBE4i_length (v : Int) : (toBE4i v).length = 4 := rfl

theorem toBE8i_length (v : Int) : (toBE8i v).length = 8 := rfl

theorem padTrunc_length (s : List Nat) (n : Nat) : (padTrunc s n).length = n := by
  simp [padTrunc]; omega

theorem fromBE4_toBE4 (n : Nat) : fromBE4 (toBE4 n) = n % 2 ^ 32 := by
  simp [fromBE4, toBE4]; omega

theorem fromBE8_toBE8 (n : Nat) : fromBE8 (toBE8 n) = n % 2 ^ 64 := by
  simp [fromBE8, toBE8]; omega

theorem fromBE4i_toBE4i {v : Int} (h1 : -2 ^ 31 ≤ v) (h2 : v < 2 ^ 31) :
    fromBE4i (toBE4i v) = v := by
  simp only [fromBE4i, toBE4i, fromBE4_toBE4]
  split <;> omega

theorem fromBE8i_toBE8i {v : Int} (h1 : -2 ^ 63 ≤ v) (h2 : v < 2 ^ 63) :
    fromBE8i (toBE8i v) = v := by
  simp only [fromBE8i, toBE8i, fromBE8_toBE8]
  split <;> omega

theorem utf8Step_ascii {b : Nat} (rest : List Nat) (h : b < 0x80) :
    utf8Step b rest = some rest := by
  unfold utf8Step
  rw [if_pos h]

theorem utf8Valid_of_ascii {s : List Nat} (h : ∀ b ∈ s, b < 128) :
    utf8Valid s = true := by
  induction s with
  | nil => rfl
  | cons b rest ih =>
    have hb : b < 128 := h b (by simp)
    show utf8ValidFuel (rest.length + 1) (b :: rest) = true
    rw [show utf8ValidFuel (rest.length + 1) (b :: rest) =
        (match utf8Step b rest with
         | none => false
         | some rest2 => utf8ValidFuel rest.length rest2) from rfl]
    rw [utf8Step_ascii rest hb]
    exact ih fun x hx => h x (by simp [hx])

theorem dropWhile_zero_of_noZero {s : List Nat} (h : ∀ b ∈ s, b ≠ 0) :
    s.dropWhile (· == 0) = s := by
  cases s with
  | nil => rfl
  | cons b rest =>
    have : b ≠ 0 := h b (by simp)
    simp [List.dropWhile_cons, this]

theorem trimNuls_pad {s : List Nat} (k : Nat) (h : ∀ b ∈ s, b ≠ 0) :
    trimNuls (s ++ List.replicate k 0) = s := by
  have h2 : ∀ x ∈ s.reverse, x ≠ 0 := by
    intro x hx
    exact h x (List.mem_reverse.mp hx)
  unfold trimNuls
  rw [List.dropWhile_append, dropWhile_zero_of_noZero h]
  cases s with
  | nil =>
    rw [List.dropWhile_replicate]
    simp
  | cons b rest =>
    simp only [List.isEmpty_cons, Bool.false_eq_true, if_false]
    rw [List.reverse_append, List.reverse_replicate, List.dropWhile_append,
        List.dropWhile_replicate]
    simp only [beq_self_eq_true, if_true, List.isEmpty_nil]
    rw [dropWhile_zero_of_noZero h2, List.reverse_reverse]

theorem to_str_padTrunc {s : List Nat} {w : Nat} (h : validStr s w) :
    to_str (padTrunc s w) = .ok s := by
  obtain ⟨hlen, hb⟩ := h
  have hnoz : ∀ b ∈ s, b ≠ 0 := by
    intro b hbs
    have := hb b hbs
    omega
  have hia : ∀ b ∈ s ++ List.replicate (w - s.length) 0, b < 128 := by
    intro b hbs
    rcases List.mem_append.mp hbs with hs | hz
    · exact (hb b hs).2
    · rw [List.eq_of_mem_replicate hz]
      norm_num
  unfold to_str padTrunc
  rw [List.take_of_length_le hlen, utf8Valid_of_ascii hia, if_pos rfl,
      trimNuls_pad _ hnoz]

theorem byteSlice_append_right (A B : List Nat) (x y : Nat) (h : A.length ≤ x) :
    byteSlice (A ++ B) x y = byteSlice B (x - A.length) (y - A.length) := by
  unfold byteSlice
  rw [List.drop_append_eq_append_drop, List.drop_eq_nil_of_le h, List.nil_append]
  congr 1
  omega

theorem byteSlice_front (A B : List Nat) (y : Nat) (h : y ≤ A.length) :
    byteSlice (A ++ B) 0 y = A.take y := by
  unfold byteSlice
  rw [List.drop_zero, Nat.sub_zero, List.take_append_eq_append_take,
      Nat.sub_eq_zero_of_le h, List.take_zero, List.append_nil]

theorem byteSlice_exact (A B : List Nat) (y : Nat) (h : A.length = y) :
    byteSlice (A ++ B) 0 y = A := by
  rw [byteSlice_front _ _ _ (le_of_eq h.symm), ← h, List.take_length]

theorem byteSlice_all (A : List Nat) (y : Nat) (h : A.length = y) :
    byteSlice A 0 y = A := by
  unfold byteSlice
  rw [List.drop_zero, Nat.sub_zero, ← h, List.take_length]

theorem byteSlice_block (A B : List Nat) (n x y : Nat) (hA : A.length = n)
    (hx : n ≤ x) : byteSlice (A ++ B) x y = byteSlice B (x - n) (y - n) := by
  rw [byteSlice_append_right A B x y (by omega), hA]

theorem staticHeader_as_bytes_length (h : StaticHeader) :
    h.as_bytes.length = 72 := by
  simp [StaticHeader.as_bytes, padTrunc_length, toBE4, toBE8]

theorem apidInfo_as_bytes_length (i : ApidInfo) : i.as_bytes.length = 32 := by
  simp [ApidInfo.as_bytes, padTrunc_length, toBE4]

theorem packetTracker_as_bytes_length (t : PacketTracker) :
    t.as_bytes.length = 24 := by
  simp [PacketTracker.as_bytes, toBE4i, toBE8i, toBE4, toBE8]

theorem staticHeader_roundtrip {h : StaticHeader} (hv : h.Valid) :
    StaticHeader.from_bytes h.as_bytes = .ok h := by
  obtain ⟨v1, v2, v3, n1, n2, n3, n4, n5, n6, n7⟩ := hv
  have e1 : byteSlice h.as_bytes 0 4 = padTrunc h.satellite 4 := by
    unfold StaticHeader.as_bytes
    simp only [List.append_assoc]
    rw [byteSlice_exact _ _ _ (padTrunc_length _ _)]
  have e2 : byteSlice h.as_bytes 4 20 = padTrunc h.sensor 16 := by
    unfold StaticHeader.as_bytes
    simp only [List.append_assoc]
    rw [byteSlice_block _ _ 4 _ _ (padTrunc_length _ _) (by norm_num)]
    norm_num
    rw [byteSlice_exact _ _ _ (padTrunc_length _ _)]
  have e3 : byteSlice h.as_bytes 20 36 = padTrunc h.type_id 16 := by
    unfold StaticHeader.as_bytes
    simp only [List.append_assoc]
    rw [byteSlice_block _ _ 4 _ _ (padTrunc_length _ _) (by norm_num),
        byteSlice_block _ _ 16 _ _ (padTrunc_length _ _) (by norm_num)]
    norm_num
    rw [byteSlice_exact _ _ _ (padTrunc_length _ _)]
  have e4 : byteSlice h.as_bytes 36 40 = toBE4 h.num_apids := by
    unfold StaticHeader.as_bytes
    simp only [List.append_assoc]
    rw [byteSlice_block _ _ 4 _ _ (padTrunc_length _ _) (by norm_num),
        byteSlice_block _ _ 16 _ _ (padTrunc_length _ _) (by norm_num),
        byteSlice_block _ _ 16 _ _ (padTrunc_length _ _) (by norm_num)]
    norm_num
    rw [byteSlice_exact _ _ _ (toBE4_length _)]
  have e5 : byteSlice h.as_bytes 40 44 = toBE4 h.apid_list_offset := by
    unfold StaticHeader.as_bytes
    simp only [List.append_assoc]
    rw [byteSlice_block _ _ 4 _ _ (padTrunc_length _ _) (by norm_num),
        byteSlice_block _ _ 16 _ _ (padTrunc_length _ _) (by norm_num),
        byteSlice_block _ _ 16 _ _ (padTrunc_length _ _) (by norm_num),
        byteSlice_block _ _ 4 _ _ (toBE4_length _) (by norm_num)]
    norm_num
    rw [byteSlice_exact _ _ _ (toBE4_length _)]
  have e6 : byteSlice h.as_bytes 44 48 = toBE4 h.pkt_tracker_offset := by
    unfold StaticHeader.as_bytes
    simp only [List.append_assoc]
    rw [byteSlice_block _ _ 4 _ _ (padTrunc_length _ _) (by norm_num),
        byteSlice_block _ _ 16 _ _ (padTrunc_length _ _) (by norm_num),
        byteSlice_block _ _ 16 _ _ (padTrunc_length _ _) (by norm_num),
        byteSlice_block _ _ 4 _ _ (toBE4_length _) (by norm_num),
        byteSlice_block _ _ 4 _ _ (toBE4_length _) (by norm_num)]
    norm_num
    rw [byteSlice_exact _ _ _ (toBE4_length _)]
  have e7 : byteSlice h.as_bytes 48 52 = toBE4 h.ap_storage_offset := by
    unfold StaticHeader.as_bytes
    simp only [List.append_assoc]
    rw [byteSlice_block _ _ 4 _ _ (padTrunc_length _ _) (by norm_num),
        byteSlice_block _ _ 16 _ _ (padTrunc_length _ _) (by norm_num),
        byteSlice_block _ _ 16 _ _ (padTrunc_length _ _) (by norm_num),
        byteSlice_block _ _ 4 _ _ (toBE4_length _) (by norm_num),
        byteSlice_block _ _ 4 _ _ (toBE4_length _) (by norm_num),
        byteSlice_block _ _ 4 _ _ (toBE4_length _) (by norm_num)]
    norm_num
    rw [byteSlice_exact _ _ _ (toBE4_length _)]
  have e8 : byteSlice h.as_bytes 52 56 = toBE4 h.next_pkt_position := by
    unfold StaticHeader.as_bytes
    simp only [List.append_assoc]
    rw [byteSlice_block _ _ 4 _ _ (padTrunc_length _ _) (by norm_num),
        byteSlice_block _ _ 16 _ _ (padTrunc_length _ _) (by norm_num),
        byteSlice_block _ _ 16 _ _ (padTrunc_length _ _) (by norm_num),
        byteSlice_block _ _ 4 _ _ (toBE4_length _) (by norm_num),
        byteSlice_block _ _ 4 _ _ (toBE4_length _) (by norm_num),
        byteSlice_block _ _ 4 _ _ (toBE4_length _) (by norm_num),
        byteSlice_block _ _ 4 _ _ (toBE4_length _) (by norm_num)]
    norm_num
    rw [byteSlice_exact _ _ _ (toBE4_length _)]
  have e9 : byteSlice h.as_bytes 56 64 = toBE8 h.start_boundary := by
    unfold StaticHeader.as_bytes
    simp only [List.append_assoc]
    rw [byteSlice_block _ _ 4 _ _ (padTrunc_length _ _) (by norm_num),
        byteSlice_block _ _ 16 _ _ (padTrunc_length _ _) (by norm_num),
        byteSlice_block _ _ 16 _ _ (padTrunc_length _ _) (by norm_num),
        byteSlice_block _ _ 4 _ _ (toBE4_length _) (by norm_num),
        byteSlice_block _ _ 4 _ _ (toBE4_length _) (by norm_num),
        byteSlice_block _ _ 4 _ _ (toBE4_length _) (by norm_num),
        byteSlice_block _ _ 4 _ _ (toBE4_length _) (by norm_num),
        byteSlice_block _ _ 4 _ _ (toBE4_length _) (by norm_num)]
    norm_num
    rw [byteSlice_exact _ _ _ (toBE8_length _)]
  have e10 : byteSlice h.as_bytes 64 72 = toBE8 h.end_boundary := by
    unfold StaticHeader.as_bytes
    simp only [List.append_assoc]
    rw [byteSlice_block _ _ 4 _ _ (padTrunc_length _ _) (by norm_num),
        byteSlice_block _ _ 16 _ _ (padTrunc_length _ _) (by norm_num),
        byteSlice_block _ _ 16 _ _ (padTrunc_length _ _) (by norm_num),
        byteSlice_block _ _ 4 _ _ (toBE4_length _) (by norm_num),
        byteSlice_block _ _ 4 _ _ (toBE4_length _) (by norm_num),
        byteSlice_block _ _ 4 _ _ (toBE4_length _) (by norm_num),
        byteSlice_block _ _ 4 _ _ (toBE4_length _) (by norm_num),
        byteSlice_block _ _ 4 _ _ (toBE4_length _) (by norm_num),
        byteSlice_block _ _ 8 _ _ (toBE8_length _) (by norm_num)]
    norm_num
    rw [byteSlice_all _ _ (toBE8_length _)]
  unfold StaticHeader.from_bytes
  rw [if_neg (by rw [staticHeader_as_bytes_length]; norm_num [StaticHeader.LEN])]
  simp only [e1, e2, e3, e4, e5, e6, e7, e8, e9, e10,
    to_str_padTrunc v1, to_str_padTrunc v2, to_str_padTrunc v3,
    fromBE4_toBE4, fromBE8_toBE8,
    Nat.mod_eq_of_lt n1, Nat.mod_eq_of_lt n2, Nat.mod_eq_of_lt n3,
    Nat.mod_eq_of_lt n4, Nat.mod_eq_of_lt n5,
    Nat.mod_eq_of_lt n6, Nat.mod_eq_of_lt n7]
  rfl

theorem apidInfo_roundtrip {i : ApidInfo} (hv : i.Valid) :
    ApidInfo.from_bytes i.as_bytes = .ok i := by
  obtain ⟨v1, n1, n2, n3, n4⟩ := hv
  have e1 : byteSlice i.as_bytes 0 16 = padTrunc i.name 16 := by
    unfold ApidInfo.as_bytes
    simp only [List.append_assoc]
    rw [byteSlice_exact _ _ _ (padTrunc_length _ _)]
  have e2 : byteSlice i.as_bytes 16 20 = toBE4 i.value := by
    unfold ApidInfo.as_bytes
    simp only [List.append_assoc]
    rw [byteSlice_block _ _ 16 _ _ (padTrunc_length _ _) (by norm_num)]
    norm_num
    rw [byteSlice_exact _ _ _ (toBE4_length _)]
  have e3 : byteSlice i.as_bytes 20 24 = toBE4 i.pkt_tracker_start_idx := by
    unfold ApidInfo.as_bytes
    simp only [List.append_assoc]
    rw [byteSlice_block _ _ 16 _ _ (padTrunc_length _ _) (by norm_num),
        byteSlice_block _ _ 4 _ _ (toBE4_length _) (by norm_num)]
    norm_num
    rw [byteSlice_exact _ _ _ (toBE4_length _)]
  have e4 : byteSlice i.as_bytes 24 28 = toBE4 i.pkts_reserved := by
    unfold ApidInfo.as_bytes
    simp only [List.append_assoc]
    rw [byteSlice_block _ _ 16 _ _ (padTrunc_length _ _) (by norm_num),
        byteSlice_block _ _ 4 _ _ (toBE4_length _) (by norm_num),
        byteSlice_block _ _ 4 _ _ (toBE4_length _) (by norm_num)]
    norm_num
    rw [byteSlice_exact _ _ _ (toBE4_length _)]
  have e5 : byteSlice i.as_bytes 28 32 = toBE4 i.pkts_received := by
    unfold ApidInfo.as_bytes
    simp only [List.append_assoc]
    rw [byteSlice_block _ _ 16 _ _ (padTrunc_length _ _) (by norm_num),
        byteSlice_block _ _ 4 _ _ (toBE4_length _) (by norm_num),
        byteSlice_block _ _ 4 _ _ (toBE4_length _) (by norm_num),
        byteSlice_block _ _ 4 _ _ (toBE4_length _) (by norm_num)]
    norm_num
    rw [byteSlice_all _ _ (toBE4_length _)]
  unfold ApidInfo.from_bytes
  rw [if_neg (by rw [apidInfo_as_bytes_length]; norm_num [ApidInfo.LEN])]
  simp only [e1, e2, e3, e4, e5, to_str_padTrunc v1, fromBE4_toBE4,
    Nat.mod_eq_of_lt n1, Nat.mod_eq_of_lt n2, Nat.mod_eq_of_lt n3,
    Nat.mod_eq_of_lt n4]
  rfl

theorem packetTracker_roundtrip {t : PacketTracker} (hv : t.Valid) :
    PacketTracker.from_bytes t.as_bytes = .ok t := by
  obtain ⟨a1, a2, b1, b2, c1, c2, d1, d2, f1, f2⟩ := hv
  have e1 : byteSlice t.as_bytes 0 8 = toBE8i t.obs_time := by
    unfold PacketTracker.as_bytes
    simp only [List.append_assoc]
    rw [byteSlice_exact _ _ _ (toBE8i_length _)]
  have e2 : byteSlice t.as_bytes 8 12 = toBE4i t.sequence_number := by
    unfold PacketTracker.as_bytes
    simp only [List.append_assoc]
    rw [byteSlice_block _ _ 8 _ _ (toBE8i_length _) (by norm_num)]
    norm_num
    rw [byteSlice_exact _ _ _ (toBE4i_length _)]
  have e3 : byteSlice t.as_bytes 12 16 = toBE4i t.size := by
    unfold PacketTracker.as_bytes
    simp only [List.append_assoc]
    rw [byteSlice_block _ _ 8 _ _ (toBE8i_length _) (by norm_num),
        byteSlice_block _ _ 4 _ _ (toBE4i_length _) (by norm_num)]
    norm_num
    rw [byteSlice_exact _ _ _ (toBE4i_length _)]
  have e4 : byteSlice t.as_bytes 16 20 = toBE4i t.offset := by
    unfold PacketTracker.as_bytes
    simp only [List.append_assoc]
    rw [byteSlice_block _ _ 8 _ _ (toBE8i_length _) (by norm_num),
        byteSlice_block _ _ 4 _ _ (toBE4i_length _) (by norm_num),
        byteSlice_block _ _ 4 _ _ (toBE4i_length _) (by norm_num)]
    norm_num
    rw [byteSlice_exact _ _ _ (toBE4i_length _)]
  have e5 : byteSlice t.as_bytes 20 24 = toBE4i t.fill_percent := by
    unfold PacketTracker.as_bytes
    simp only [List.append_assoc]
    rw [byteSlice_block _ _ 8 _ _ (toBE8i_length _) (by norm_num),
        byteSlice_block _ _ 4 _ _ (toBE4i_length _) (by norm_num),
        byteSlice_block _ _ 4 _ _ (toBE4i_length _) (by norm_num),
        byteSlice_block _ _ 4 _ _ (toBE4i_length _) (by norm_num)]
    norm_num
    rw [byteSlice_all _ _ (toBE4i_length _)]
  unfold PacketTracker.from_bytes
  rw [if_neg (by rw [packetTracker_as_bytes_length]; norm_num [PacketTracker.LEN])]
  rw [e1, e2, e3, e4, e5,
      fromBE8i_toBE8i a1 a2, fromBE4i_toBE4i b1 b2, fromBE4i_toBE4i c1 c2,
      fromBE4i_toBE4i d1 d2, fromBE4i_toBE4i f1 f2]

theorem granule_start_formula (iet gran_len base_time : Nat)
    (hb : base_time ≤ iet) (hi : iet < 2 ^ 64) (hl : 0 < gran_len) :
    get_granule_start iet gran_len base_time
      = (iet - base_time) / gran_len * gran_len + base_time := by
  have h1 : u64wrapSub iet base_time = iet - base_time := by
    unfold u64wrapSub
    omega
  have h2 : (iet - base_time) / gran_len * gran_len ≤ iet - base_time :=
    Nat.div_mul_le_self _ _
  unfold get_granule_start
  rw [h1, Nat.mod_eq_of_lt (by omega), Nat.mod_eq_of_lt (by omega)]

/-- C7: `get_granule_start(pkt_iet, gran_len, base_time)` equals
`((pkt_iet − base_time) / gran_len) · gran_len + base_time` with truncating
integer division, and in particular, for every `k`, granule length `L > 0`
and `0 ≤ δ < L` (absent arithmetic overflow), it maps
`1698019234000000 + k·L + δ` to `1698019234000000 + k·L`. -/
theorem claim_C7_granule_start_arithmetic :
    (∀ iet gran_len base_time : Nat,
      base_time ≤ iet → iet < 2 ^ 64 → 0 < gran_len →
      get_granule_start iet gran_len base_time
        = (iet - base_time) / gran_len * gran_len + base_time) ∧
    (∀ k L δ : Nat, 0 < L → δ < L → 1698019234000000 + k * L + δ < 2 ^ 64 →
      get_granule_start (1698019234000000 + k * L + δ) L 1698019234000000
        = 1698019234000000 + k * L) := by
  constructor
  · exact granule_start_formula
  · intro k L δ hL hδ hov
    rw [granule_start_formula _ _ _ (by omega) hov hL]
    have e1 : 1698019234000000 + k * L + δ - 1698019234000000 = k * L + δ := by
      omega
    have e2 : (k * L + δ) / L = k := by
      rw [Nat.mul_comm k L, Nat.mul_add_div hL, Nat.div_eq_of_lt hδ, Nat.add_zero]
    rw [e1, e2, Nat.add_comm]

/-- Witness for C7 at the granule length and times of the source's own unit
test. -/
theorem claim_C7_granule_start_arithmetic_witness :
    get_granule_start 2112504636060127 85350000 1698019234000000
        = (2112504636060127 - 1698019234000000) / 85350000 * 85350000
            + 1698019234000000 ∧
    get_granule_start (1698019234000000 + 3 * 85350000 + 12345) 85350000
        1698019234000000 = 1698019234000000 + 3 * 85350000 :=
  ⟨claim_C7_granule_start_arithmetic.1 2112504636060127 85350000 1698019234000000
      (by norm_num) (by norm_num) (by norm_num),
   claim_C7_granule_start_arithmetic.2 3 85350000 12345
      (by norm_num) (by norm_num) (by norm_num)⟩

/-- C6: for every valid `StaticHeader`, `ApidInfo` and `PacketTracker` value
(string fields ASCII without NUL bytes and no longer than their field
widths, numeric fields in machine range), decoding the encoded bytes
succeeds and returns a value equal to the original. -/
theorem claim_C6_codec_roundtrip (h : StaticHeader) (i : ApidInfo)
    (t : PacketTracker) (hh : h.Valid) (hi : i.Valid) (ht : t.Valid) :
    StaticHeader.from_bytes h.as_bytes = .ok h ∧
      ApidInfo.from_bytes i.as_bytes = .ok i ∧
      PacketTracker.from_bytes t.as_bytes = .ok t :=
  ⟨staticHeader_roundtrip hh, apidInfo_roundtrip hi, packetTracker_roundtrip ht⟩

/-- Witness for C6 at the values of the source's unit tests (`NPP`/`VIIRS`/
`SCIENCE` header, `BAND` APID entry, small tracker). -/
theorem claim_C6_codec_roundtrip_witness :
    StaticHeader.from_bytes (StaticHeader.mk [78, 80, 80] [86, 73, 73, 82, 83]
        [83, 67, 73, 69, 78, 67, 69] 10 20 30 40 50 123456 654321).as_bytes
      = .ok (StaticHeader.mk [78, 80, 80] [86, 73, 73, 82, 83]
        [83, 67, 73, 69, 78, 67, 69] 10 20 30 40 50 123456 654321) ∧
      ApidInfo.from_bytes (ApidInfo.mk [66, 65, 78, 68] 999 10 20 30).as_bytes
        = .ok (ApidInfo.mk [66, 65, 78, 68] 999 10 20 30) ∧
      PacketTracker.from_bytes (PacketTracker.mk 1234567 10 20 (-1) 40).as_bytes
        = .ok (PacketTracker.mk 1234567 10 20 (-1) 40) :=
  claim_C6_codec_roundtrip _ _ _ (by decide) (by decide) (by decide)

/-- C9 (code bug): each fixed-record decoder given a buffer shorter than its
`LEN` returns `NotEnoughBytes`; the composite `CommonRdr::from_bytes`,
however, slices `data[..StaticHeader::LEN]` before any length check, so on a
buffer shorter than 72 bytes it panics (modelled as `none`) instead of
returning an error. -/
theorem claim_C9_short_buffer (data : List Nat) :
    (data.length < StaticHeader.LEN →
      StaticHeader.from_bytes data = .error (.notEnoughBytes .staticHeader)) ∧
    (data.length < ApidInfo.LEN →
      ApidInfo.from_bytes data = .error (.notEnoughBytes .apidInfo)) ∧
    (data.length < PacketTracker.LEN →
      PacketTracker.from_bytes data = .error (.notEnoughBytes .packetTracker)) ∧
    (data.length < StaticHeader.LEN → CommonRdr.from_bytes data = none) := by
  refine ⟨fun h => ?_, fun h => ?_, fun h => ?_, fun h => ?_⟩
  · unfold StaticHeader.from_bytes
    rw [if_pos h]
  · unfold ApidInfo.from_bytes
    rw [if_pos h]
  · unfold PacketTracker.from_bytes
    rw [if_pos h]
  · unfold CommonRdr.from_bytes
    rw [if_pos h]

/-- Witness for C9 at a concrete 71-byte buffer. -/
theorem claim_C9_short_buffer_witness :
    StaticHeader.from_bytes (List.replicate 71 0)
        = .error (.notEnoughBytes .staticHeader) ∧
      ApidInfo.from_bytes (List.replicate 23 0)
        = .error (.notEnoughBytes .apidInfo) ∧
      PacketTracker.from_bytes (List.replicate 23 0)
        = .error (.notEnoughBytes .packetTracker) ∧
      CommonRdr.from_bytes (List.replicate 71 0) = none :=
  ⟨(claim_C9_short_buffer _).1 (by decide),
   (claim_C9_short_buffer _).2.1 (by decide),
   (claim_C9_short_buffer _).2.2.1 (by decide),
   (claim_C9_short_buffer _).2.2.2 (by decide)⟩

/-- C8 (amended): for every accumulator and packet whose APID is not among
the accumulator's configured APIDs, `add_packet` fails with the
`InvalidPacket` error carrying the packet's primary header — not with the
`InvalidPacketApid` error the spec names — and the accumulator is
unchanged. -/
theorem claim_C8_unconfigured_apid (d : RdrData) (pkt_time : Nat) (pkt : Packet)
    (h : lookupA d.apid_list pkt.header.apid = none) :
    d.add_packet pkt_time pkt
      = (d, .error (.rdrError (.invalidPacket pkt.header))) := by
  unfold RdrData.add_packet
  rw [h]

/-- Witness for C8 (amended) at a concrete accumulator configured with APID
100 and a packet with APID 200. -/
theorem claim_C8_unconfigured_apid_witness :
    (RdrData.new exSat exProdP 0).add_packet 5 ⟨⟨200, 1⟩, [1, 2, 3]⟩
      = (RdrData.new exSat exProdP 0,
         .error (.rdrError (.invalidPacket ⟨200, 1⟩))) :=
  claim_C8_unconfigured_apid _ _ _ (by decide)

/-- C8 counterexample: at the same concrete input the error produced is
`InvalidPacket`, and it is not of the `InvalidPktApid` shape that `error.rs`
declares for a misconfigured APID, so the claim as stated is false. -/
theorem claim_C8_counterexample :
    ((RdrData.new exSat exProdP 0).add_packet 5 ⟨⟨200, 1⟩, [1, 2, 3]⟩).2
        = .error (.rdrError (.invalidPacket ⟨200, 1⟩)) ∧
      isInvalidPktApid
        ((RdrData.new exSat exProdP 0).add_packet 5 ⟨⟨200, 1⟩, [1, 2, 3]⟩).2
        = false := by
  decide

/-- C5 (amended): whenever the granule start derived by the source's
(wrapping) u64 arithmetic is below the satellite base time, `Collector::add`
returns the `InvalidGranuleStart` error and the collector state is
unchanged. -/
theorem claim_C5_invalid_granule_start (c : Collector) (pkt_time : Nat)
    (pkt : Packet) (prod_id : List Nat) (product : ProductSpec)
    (hid : lookupA c.ids pkt.header.apid = some prod_id)
    (hprod : lookupA c.products prod_id = some product)
    (hlt : get_granule_start pkt_time product.gran_len c.sat.base_time
      < c.sat.base_time) :
    c.add pkt_time pkt = some (c, .error (.rdrError (.invalidGranuleStart
      (get_granule_start pkt_time product.gran_len c.sat.base_time)))) := by
  unfold Collector.add
  simp only [hid, hprod]
  rw [if_pos hlt]

/-- Witness for C5 (amended): base time 1000, granule length 20, packet IET
995; the derived granule start is 984, below the base time. -/
theorem claim_C5_invalid_granule_start_witness :
    Collector.add
        (Collector.new ⟨[110], [78, 80, 80], 1000, [77]⟩ [⟨[80], []⟩] [exProdP])
        995 (exPkt 1 [9])
      = some (Collector.new ⟨[110], [78, 80, 80], 1000, [77]⟩ [⟨[80], []⟩] [exProdP],
          .error (.rdrError (.invalidGranuleStart 984))) := by
  rw [claim_C5_invalid_granule_start
    (Collector.new ⟨[110], [78, 80, 80], 1000, [77]⟩ [⟨[80], []⟩] [exProdP])
    995 (exPkt 1 [9]) [80] exProdP (by decide) (by decide) (by decide)]
  decide

/-- C5 counterexample: with the real base time 1698019234000000 and granule
length 11, a packet at IET 0 — long before the base time — is accepted: the
wrapping u64 subtraction in `get_granule_start` lands the derived granule
start at `2 ^ 64 - 6`, above the base time, so no `InvalidGranuleStart` is
returned and the collector state changes. -/
theorem claim_C5_counterexample :
    get_granule_start 0 11 1698019234000000 = 2 ^ 64 - 6 ∧
      (exC5collector.add 0 (exPkt 1 [9])).isSome = true ∧
      ((exC5collector.add 0 (exPkt 1 [9])).getD
        (exC5collector, .ok none)).2 = .ok none ∧
      (((exC5collector.add 0 (exPkt 1 [9])).getD
        (exC5collector, .ok none)).1 = exC5collector) = False := by
  refine ⟨by decide, by decide, by decide, ?_⟩
  simp only [eq_iff_iff, iff_false]
  decide

/-- C4 (code bug): the collector's packed table holds exactly one
accumulator (product `A`, granule length 10, granule start 95), which for a
primary granule `[100, 120)` qualifies under its own granule length once;
`overlapping_packed_rdrs` nevertheless returns it twice, because the inner
loop of the source ignores each entry's own product id and re-tests every
entry against every configured packed product's granule length. -/
theorem claim_C4_duplicate_inclusion :
    exC4collector.packed.length = 1 ∧
      exC4collector.overlapping_packed_rdrs 100 120 = .ok [exC4rdr, exC4rdr] := by
  constructor
  · decide
  · rfl

/-- Helper facts about `std::cmp::min_by` over `begin_time_iet`. -/
theorem foldl_minByBegin_spec :
    ∀ (rest : List Rdr) (r0 : Rdr),
      (rest.foldl minByBegin r0 = r0 ∨ rest.foldl minByBegin r0 ∈ rest) ∧
      (rest.foldl minByBegin r0).meta.begin_time_iet ≤ r0.meta.begin_time_iet ∧
      ∀ r' ∈ rest,
        (rest.foldl minByBegin r0).meta.begin_time_iet ≤ r'.meta.begin_time_iet := by
  intro rest
  induction rest with
  | nil => exact fun r0 => ⟨Or.inl rfl, le_refl _, by simp⟩
  | cons b t ih =>
    intro r0
    have hml : (minByBegin r0 b).meta.begin_time_iet ≤ r0.meta.begin_time_iet := by
      unfold minByBegin
      split <;> omega
    have hmr : (minByBegin r0 b).meta.begin_time_iet ≤ b.meta.begin_time_iet := by
      unfold minByBegin
      split <;> omega
    have hmem : minByBegin r0 b = r0 ∨ minByBegin r0 b = b := by
      unfold minByBegin
      split
      · exact Or.inr rfl
      · exact Or.inl rfl
    obtain ⟨i1, i2, i3⟩ := ih (minByBegin r0 b)
    refine ⟨?_, ?_, ?_⟩
    · rcases i1 with h | h
      · rw [List.foldl_cons, h]
        rcases hmem with h2 | h2
        · exact Or.inl h2
        · exact Or.inr (by simp [h2])
      · exact Or.inr (by simp [List.foldl_cons]; right; exact h)
    · rw [List.foldl_cons]
      omega
    · intro r' hr'
      rcases List.mem_cons.mp hr' with h | h
      · rw [List.foldl_cons]
        subst h
        omega
      · rw [List.foldl_cons]
        exact i3 r' h

/-- Helper facts about `std::cmp::max_by` over `end_time_iet`. -/
theorem foldl_maxByEnd_spec :
    ∀ (rest : List Rdr) (r0 : Rdr),
      (rest.foldl maxByEnd r0 = r0 ∨ rest.foldl maxByEnd r0 ∈ rest) ∧
      r0.meta.end_time_iet ≤ (rest.foldl maxByEnd r0).meta.end_time_iet ∧
      ∀ r' ∈ rest,
        r'.meta.end_time_iet ≤ (rest.foldl maxByEnd r0).meta.end_time_iet := by
  intro rest
  induction rest with
  | nil => exact fun r0 => ⟨Or.inl rfl, le_refl _, by simp⟩
  | cons b t ih =>
    intro r0
    have hml : r0.meta.end_time_iet ≤ (maxByEnd r0 b).meta.end_time_iet := by
      unfold maxByEnd
      split <;> omega
    have hmr : b.meta.end_time_iet ≤ (maxByEnd r0 b).meta.end_time_iet := by
      unfold maxByEnd
      split <;> omega
    have hmem : maxByEnd r0 b = r0 ∨ maxByEnd r0 b = b := by
      unfold maxByEnd
      split
      · exact Or.inl rfl
      · exact Or.inr rfl
    obtain ⟨i1, i2, i3⟩ := ih (maxByEnd r0 b)
    refine ⟨?_, ?_, ?_⟩
    · rcases i1 with h | h
      · rw [List.foldl_cons, h]
        rcases hmem with h2 | h2
        · exact Or.inl h2
        · exact Or.inr (by simp [h2])
      · exact Or.inr (by simp [List.foldl_cons]; right; exact h)
    · rw [List.foldl_cons]
      omega
    · intro r' hr'
      rcases List.mem_cons.mp hr' with h | h
      · rw [List.foldl_cons]
        subst h
        omega
      · rw [List.foldl_cons]
        exact i3 r' h

/-- C10: for every non-empty list of RDRs, `AggrMeta::from_rdrs` sets
both aggregate orbit numbers to 1, the granule count to the number of RDRs,
the beginning date, time and granule id to those of an RDR attaining the
smallest beginning IET time, and the ending date, time and granule id to
those of an RDR attaining the largest ending IET time. -/
theorem claim_C10_aggr_meta (rdrs : List Rdr) (hne : rdrs ≠ []) :
    ∃ m, AggrMeta.from_rdrs rdrs = some m ∧
      m.begin_orbit_nubmer = 1 ∧ m.end_orbit_number = 1 ∧
      m.num_granules = rdrs.length ∧
      (∃ r ∈ rdrs,
        (∀ r' ∈ rdrs, r.meta.begin_time_iet ≤ r'.meta.begin_time_iet) ∧
        m.begin_date = r.meta.begin_date ∧ m.begin_time = r.meta.begin_time ∧
        m.begin_granule_id = r.meta.id) ∧
      (∃ r ∈ rdrs,
        (∀ r' ∈ rdrs, r'.meta.end_time_iet ≤ r.meta.end_time_iet) ∧
        m.end_date = r.meta.end_date ∧ m.end_time = r.meta.end_time ∧
        m.end_granule_id = r.meta.id) := by
  cases rdrs with
  | nil => exact absurd rfl hne
  | cons r0 rest =>
    refine ⟨_, rfl, rfl, rfl, rfl, ?_, ?_⟩
    · obtain ⟨m1, m2, m3⟩ := foldl_minByBegin_spec rest r0
      refine ⟨rest.foldl minByBegin r0, ?_, ?_, rfl, rfl, rfl⟩
      · rcases m1 with h | h
        · rw [h]
          exact List.mem_cons_self _ _
        · exact List.mem_cons_of_mem _ h
      · intro r' hr'
        rcases List.mem_cons.mp hr' with h | h
        · rw [h]
          exact m2
        · exact m3 r' h
    · obtain ⟨m1, m2, m3⟩ := foldl_maxByEnd_spec rest r0
      refine ⟨rest.foldl maxByEnd r0, ?_, ?_, rfl, rfl, rfl⟩
      · rcases m1 with h | h
        · rw [h]
          exact List.mem_cons_self _ _
        · exact List.mem_cons_of_mem _ h
      · intro r' hr'
        rcases List.mem_cons.mp hr' with h | h
        · rw [h]
          exact m2
        · exact m3 r' h

/-- Witness for C10 at a concrete two-element list. -/
theorem claim_C10_aggr_meta_witness :
    ∃ m, AggrMeta.from_rdrs
        [⟨⟨[50], [51], 200, [52], [53], 300, [54]⟩, [80], []⟩,
         ⟨⟨[55], [56], 100, [57], [58], 400, [59]⟩, [81], []⟩] = some m ∧
      m.begin_orbit_nubmer = 1 ∧ m.end_orbit_number = 1 ∧
      m.num_granules = 2 ∧
      (∃ r ∈ [⟨⟨[50], [51], 200, [52], [53], 300, [54]⟩, [80], []⟩,
              (⟨⟨[55], [56], 100, [57], [58], 400, [59]⟩, [81], []⟩ : Rdr)],
        (∀ r' ∈ [⟨⟨[50], [51], 200, [52], [53], 300, [54]⟩, [80], []⟩,
                 (⟨⟨[55], [56], 100, [57], [58], 400, [59]⟩, [81], []⟩ : Rdr)],
          r.meta.begin_time_iet ≤ r'.meta.begin_time_iet) ∧
        m.begin_date = r.meta.begin_date ∧ m.begin_time = r.meta.begin_time ∧
        m.begin_granule_id = r.meta.id) ∧
      (∃ r ∈ [⟨⟨[50], [51], 200, [52], [53], 300, [54]⟩, [80], []⟩,
              (⟨⟨[55], [56], 100, [57], [58], 400, [59]⟩, [81], []⟩ : Rdr)],
        (∀ r' ∈ [⟨⟨[50], [51], 200, [52], [53], 300, [54]⟩, [80], []⟩,
                 (⟨⟨[55], [56], 100, [57], [58], 400, [59]⟩, [81], []⟩ : Rdr)],
          r'.meta.end_time_iet ≤ r.meta.end_time_iet) ∧
        m.end_date = r.meta.end_date ∧ m.end_time = r.meta.end_time ∧
        m.end_granule_id = r.meta.id) :=
  claim_C10_aggr_meta _ (by decide)

theorem lookupA_mem [DecidableEq κ] {l : List (κ × α)} {k : κ} {v : α}
    (h : lookupA l k = some v) : (k, v) ∈ l := by
  induction l with
  | nil => simp [lookupA] at h
  | cons f rest ih =>
    obtain ⟨k', v'⟩ := f
    unfold lookupA at h
    split at h
    · rename_i he
      injection h with h2
      subst he h2
      exact List.mem_cons_self _ _
    · exact List.mem_cons_of_mem _ (ih h)

theorem eraseA_mem [DecidableEq κ] {l : List (κ × α)} {k : κ} {e : κ × α}
    (h : e ∈ eraseA l k) : e ∈ l := by
  induction l with
  | nil => simpa [eraseA] using h
  | cons f rest ih =>
    obtain ⟨k', v'⟩ := f
    unfold eraseA at h
    split at h
    · exact List.mem_cons_of_mem _ h
    · rcases List.mem_cons.mp h with h2 | h2
      · exact h2 ▸ List.mem_cons_self _ _
      · exact List.mem_cons_of_mem _ (ih h2)

theorem primaryBeginTimes_cons (pid : List Nat) (r : EmittedRdr)
    (g : List EmittedRdr) (gs : List (List EmittedRdr)) :
    primaryBeginTimes pid ((r :: g) :: gs)
      = (if r.product_id = pid then [r.begin_iet] else [])
          ++ primaryBeginTimes pid gs := by
  unfold primaryBeginTimes
  rw [List.filterMap_cons]
  simp only [List.head?_cons, List.filter_cons]
  split
  · rename_i hbeq
    split
    · simp
    · rename_i hne
      exact absurd (by simpa using hbeq) hne
  · rename_i hbeq
    split
    · rename_i he
      exact absurd (by simpa using he) (by simpa using hbeq)
    · simp

/-- Order invariant of the `finish` loop: over a pairwise
time-ordered, duplicate-free key list, the emitted per-product granule
times are strictly increasing and are drawn from the key list. -/
theorem finishGo_chain :
    ∀ (keys : List (List Nat × Nat)) (c : Collector)
      (groups : List (List EmittedRdr)),
      List.Pairwise (fun k1 k2 => k1.2 ≤ k2.2 ∧ k1 ≠ k2) keys →
      (∀ e ∈ c.primary, e.2.header.start_boundary = e.1.2) →
      Collector.finishGo c keys = .ok groups →
      ∀ pid, List.Chain' (· < ·) (primaryBeginTimes pid groups) ∧
        ∀ x ∈ primaryBeginTimes pid groups, (pid, x) ∈ keys := by
  intro keys
  induction keys with
  | nil =>
    intro c groups hp hbs hfin pid
    unfold Collector.finishGo at hfin
    injection hfin with h
    subst h
    exact ⟨List.chain'_nil, by simp [primaryBeginTimes]⟩
  | cons k rest ih =>
    intro c groups hp hbs hfin pid
    obtain ⟨hpk, hpr⟩ := List.pairwise_cons.mp hp
    unfold Collector.finishGo at hfin
    split at hfin
    · obtain ⟨h1, h2⟩ := ih c groups hpr hbs hfin pid
      exact ⟨h1, fun x hx => List.mem_cons_of_mem _ (h2 x hx)⟩
    · rename_i data hl
      have hbs' : ∀ e ∈ (eraseA c.primary k), e.2.header.start_boundary = e.1.2 :=
        fun e he => hbs e (eraseA_mem he)
      split at hfin
      · obtain ⟨h1, h2⟩ := ih _ groups hpr hbs' hfin pid
        exact ⟨h1, fun x hx => List.mem_cons_of_mem _ (h2 x hx)⟩
      · rename_i bytes hcompile
        split at hfin
        · exact absurd hfin (by simp)
        · rename_i packed hover
          split at hfin
          · exact absurd hfin (by simp)
          · rename_i rest2 hrest
            injection hfin with h
            subst h
            obtain ⟨h1, h2⟩ := ih _ rest2 hpr hbs' hrest pid
            have hsb : data.header.start_boundary = k.2 :=
              hbs (k, data) (lookupA_mem hl)
            rw [primaryBeginTimes_cons]
            by_cases hpid : k.1 = pid
            · rw [if_pos hpid]
              dsimp only
              simp only [List.singleton_append]
              constructor
              · rw [List.chain'_cons']
                refine ⟨?_, h1⟩
                intro y hy
                have hyt : y ∈ primaryBeginTimes pid rest2 :=
                  List.mem_of_mem_head? hy
                obtain ⟨hle, hne⟩ := hpk (pid, y) (h2 y hyt)
                have : k.2 ≠ y := by
                  intro he
                  exact hne (by rw [← hpid, ← he])
                simp only [hsb]
                omega
              · intro x hx
                rcases List.mem_cons.mp (by simpa [hsb] using hx) with h3 | h3
                · subst h3
                  have : (pid, k.2) = k := by
                    rw [← hpid]
                  rw [this]
                  exact List.mem_cons_self _ _
                · exact List.mem_cons_of_mem _ (h2 x h3)
            · rw [if_neg hpid, List.nil_append]
              exact ⟨h1, fun x hx => List.mem_cons_of_mem _ (h2 x hx)⟩

/-- C3 (amended): the granule start times of the primary RDRs emitted by
`Collector::finish`, restricted to any single product, form a strictly
increasing sequence, for any collector state whose primary table has
duplicate-free keys and stores each accumulator under its own granule-start
boundary.  (The claim's original form, over the whole emission stream of
`add` followed by `finish`, is false; see the counterexample.) -/
theorem claim_C3_finish_order (c : Collector) (groups : List (List EmittedRdr))
    (hkeys : (c.primary.map Prod.fst).Nodup)
    (hbs : ∀ e ∈ c.primary, e.2.header.start_boundary = e.1.2)
    (hfin : c.finish = .ok groups) (pid : List Nat) :
    List.Chain' (· < ·) (primaryBeginTimes pid groups) := by
  unfold Collector.finish at hfin
  have hsorted := List.sorted_insertionSort
    (fun a b : List Nat × Nat => a.2 ≤ b.2) (c.primary.map Prod.fst)
  have hnd : (List.insertionSort (fun a b : List Nat × Nat => a.2 ≤ b.2)
      (c.primary.map Prod.fst)).Nodup :=
    (List.perm_insertionSort _ _).nodup_iff.mpr hkeys
  have hcomb := hsorted.and hnd
  exact (finishGo_chain _ c groups
    (hcomb.imp fun h => ⟨h.1, h.2⟩) hbs hfin pid).1

/-- Witness for C3 (amended) at a concrete two-granule state held out of
order. -/
theorem claim_C3_finish_order_witness :
    List.Chain' (· < ·) (primaryBeginTimes [80]
      ((exC3wCollector.finish).toOption.getD [])) :=
  claim_C3_finish_order exC3wCollector _ (by decide) (by decide)
    (by decide : exC3wCollector.finish
      = .ok ((exC3wCollector.finish).toOption.getD [])) [80]

/-- C3 counterexample: feeding packets with granule times 40, 0, 60 (in that
arrival order) through `add` and then `finish` makes the collector emit the
primary granules in the order 40, 0, 60, which is not strictly
increasing. -/
theorem claim_C3_counterexample :
    primaryBeginTimes [80]
        ((runCollector exC3collector exC3pkts).2
          ++ ((runCollector exC3collector exC3pkts).1.finish.toOption.getD []))
      = [40, 0, 60] ∧
      (runCollector exC3collector exC3pkts).1.finish.toOption.isSome = true ∧
      ¬ List.Chain' (fun a b : Nat => a < b) [40, 0, 60] :=
  ⟨by decide, by decide, by simp [List.chain'_cons]⟩

theorem lookupA_mem_keys [DecidableEq κ] {l : List (κ × α)} {k : κ} {v : α}
    (h : lookupA l k = some v) : k ∈ l.map Prod.fst :=
  List.mem_map.mpr ⟨(k, v), lookupA_mem h, rfl⟩

theorem lookupA_none [DecidableEq κ] {l : List (κ × α)} {k : κ}
    (h : k ∉ l.map Prod.fst) : lookupA l k = none := by
  induction l with
  | nil => rfl
  | cons f rest ih =>
    obtain ⟨k', v'⟩ := f
    unfold lookupA
    rw [if_neg (fun he => h (by simp [he]))]
    exact ih fun hm => h (by simp; right; simpa using hm)

theorem lookupA_eq_of_mem_nodup [DecidableEq κ] {l : List (κ × α)} {k : κ}
    {v : α} (hnd : (l.map Prod.fst).Nodup) (hm : (k, v) ∈ l) :
    lookupA l k = some v := by
  induction l with
  | nil => simp at hm
  | cons f rest ih =>
    obtain ⟨k', v'⟩ := f
    simp only [List.map_cons, List.nodup_cons] at hnd
    obtain ⟨h1, h2⟩ := hnd
    rcases List.mem_cons.mp hm with h | h
    · injection h with ha hb
      unfold lookupA
      rw [if_pos ha.symm, hb]
    · unfold lookupA
      split
      · rename_i he
        exact absurd (List.mem_map.mpr ⟨(k, v), h, by rw [he]⟩) h1
      · exact ih h2 h

theorem updateA_keys [DecidableEq κ] (l : List (κ × α)) (k : κ) (v : α) :
    (updateA l k v).map Prod.fst = l.map Prod.fst := by
  induction l with
  | nil => rfl
  | cons f rest ih =>
    obtain ⟨k', v'⟩ := f
    unfold updateA
    split
    · rename_i he
      simp [he]
    · simpa using ih

theorem lookupA_updateA [DecidableEq κ] (l : List (κ × α)) (k a : κ) (v : α) :
    lookupA (updateA l k v) a
      = if a = k then (lookupA l k).map (fun _ => v) else lookupA l a := by
  induction l with
  | nil => simp [updateA, lookupA]
  | cons f rest ih =>
    obtain ⟨k', v'⟩ := f
    by_cases hk : k' = k <;> by_cases hak : a = k'
    · subst hk
      subst hak
      simp [updateA, lookupA]
    · subst hk
      have h1 : ¬(k' = a) := fun h => hak h.symm
      simp [updateA, lookupA, hak, h1]
    · subst hak
      simp [updateA, lookupA, hk]
    · have h1 : ¬(k' = a) := fun h => hak h.symm
      simp [updateA, lookupA, hk, h1, ih]

theorem lookupA_insertA [DecidableEq κ] (l : List (κ × α)) (k a : κ) (v : α) :
    lookupA (insertA l k v) a = if a = k then some v else lookupA l a := by
  induction l with
  | nil => simp [insertA, lookupA, eq_comm]
  | cons f rest ih =>
    obtain ⟨k', v'⟩ := f
    by_cases hk : k' = k <;> by_cases hak : a = k'
    · subst hk
      subst hak
      simp [insertA, lookupA]
    · subst hk
      have h1 : ¬(k' = a) := fun h => hak h.symm
      simp [insertA, lookupA, hak, h1]
    · subst hak
      simp [insertA, lookupA, hk, ih]
    · have h1 : ¬(k' = a) := fun h => hak h.symm
      simp [insertA, lookupA, hk, h1, ih]

theorem insertA_keys [DecidableEq κ] (l : List (κ × α)) (k : κ) (v : α) :
    (insertA l k v).map Prod.fst
      = if k ∈ l.map Prod.fst then l.map Prod.fst
        else l.map Prod.fst ++ [k] := by
  induction l with
  | nil => simp [insertA]
  | cons f rest ih =>
    obtain ⟨k', v'⟩ := f
    unfold insertA
    split
    · rename_i he
      subst he
      simp
    · rename_i he
      have hkk : k ≠ k' := fun h => he h.symm
      simp only [List.map_cons]
      rw [ih]
      by_cases hm : k ∈ rest.map Prod.fst
      · rw [if_pos hm, if_pos (List.mem_cons.mpr (Or.inr hm))]
      · rw [if_neg hm, if_neg (by simp [hm, hkk])]
        simp

theorem insertA_insertA [DecidableEq κ] (l : List (κ × α)) (k : κ) (v w : α) :
    insertA (insertA l k v) k w = insertA l k w := by
  induction l with
  | nil => simp [insertA]
  | cons f rest ih =>
    obtain ⟨k', v'⟩ := f
    by_cases hk : k' = k
    · subst hk
      simp [insertA]
    · simp [insertA, hk, ih]

theorem storageSize_append (st : List (Nat × Packet)) (x : Nat × Packet) :
    storageSize (st ++ [x]) = storageSize st + x.2.data.length := by
  simp [storageSize]

theorem countApid_append (a : Nat) (st : List (Nat × Packet)) (x : Nat × Packet) :
    countApid a (st ++ [x])
      = countApid a st + (if x.2.header.apid = a then 1 else 0) := by
  unfold countApid
  rw [List.filter_append, List.length_append]
  congr 1
  by_cases h : x.2.header.apid = a
  · simp [h]
  · simp [h]

theorem withOffsetsFrom_append (st : List (Nat × Packet)) (x : Nat × Packet) :
    ∀ off, withOffsetsFrom off (st ++ [x])
      = withOffsetsFrom off st ++ [(off + storageSize st, x)] := by
  induction st with
  | nil =>
    intro off
    obtain ⟨t, p⟩ := x
    simp [withOffsetsFrom, storageSize]
  | cons y rest ih =>
    intro off
    obtain ⟨t, p⟩ := y
    show withOffsetsFrom off ((t, p) :: (rest ++ [x])) = _
    unfold withOffsetsFrom
    rw [ih (off + p.data.length)]
    simp [storageSize, Nat.add_assoc]

theorem derivedTrackers_append (a : Nat) (st : List (Nat × Packet)) (t : Nat)
    (p : Packet) :
    derivedTrackers a (st ++ [(t, p)])
      = derivedTrackers a st
          ++ (if p.header.apid = a then [mkTracker (storageSize st) t p] else []) := by
  unfold derivedTrackers
  rw [withOffsetsFrom_append, List.filterMap_append]
  congr 1
  by_cases h : p.header.apid = a
  · simp [h]
  · simp [h]

theorem derivedTrackers_count (a : Nat) :
    ∀ (st : List (Nat × Packet)) (off : Nat),
      ((withOffsetsFrom off st).filterMap fun e =>
        if e.2.2.header.apid = a then some (mkTracker e.1 e.2.1 e.2.2)
        else none).length = countApid a st := by
  intro st
  induction st with
  | nil => intro off; rfl
  | cons y rest ih =>
    intro off
    obtain ⟨t, p⟩ := y
    unfold withOffsetsFrom countApid
    rw [List.filterMap_cons, List.filter_cons]
    by_cases h : p.header.apid = a
    · simp only [h, if_pos rfl, beq_self_eq_true, if_true]
      simp only [List.length_cons]
      rw [ih (off + p.data.length)]
      rfl
    · simp only [h, if_neg h]
      have : (p.header.apid == a) = false := by simpa using h
      simp only [this, Bool.false_eq_true, if_false]
      exact ih (off + p.data.length)

theorem derivedTrackers_length (a : Nat) (st : List (Nat × Packet)) :
    (derivedTrackers a st).length = countApid a st :=
  derivedTrackers_count a st 0

theorem withOffsets_bound :
    ∀ (st : List (Nat × Packet)) (off0 : Nat) (e : Nat × Nat × Packet),
      e ∈ withOffsetsFrom off0 st →
      off0 ≤ e.1 ∧ e.1 + e.2.2.data.length ≤ off0 + storageSize st := by
  intro st
  induction st with
  | nil => intro off0 e he; simp [withOffsetsFrom] at he
  | cons y rest ih =>
    intro off0 e he
    obtain ⟨t, p⟩ := y
    unfold withOffsetsFrom at he
    rcases List.mem_cons.mp he with h | h
    · subst h
      simp only [storageSize, List.map_cons, List.sum_cons]
      omega
    · have := ih (off0 + p.data.length) e h
      simp only [storageSize, List.map_cons, List.sum_cons] at *
      omega

theorem storage_slice :
    ∀ (st : List (Nat × Packet)) (off0 : Nat) (e : Nat × Nat × Packet),
      e ∈ withOffsetsFrom off0 st →
      byteSlice ((st.map fun x => x.2.data).flatten) (e.1 - off0)
          (e.1 - off0 + e.2.2.data.length)
        = e.2.2.data := by
  intro st
  induction st with
  | nil => intro off0 e he; simp [withOffsetsFrom] at he
  | cons y rest ih =>
    intro off0 e he
    obtain ⟨t, p⟩ := y
    unfold withOffsetsFrom at he
    rcases List.mem_cons.mp he with h | h
    · subst h
      simp only [List.map_cons, List.flatten_cons, Nat.sub_self]
      rw [byteSlice_front _ _ _ (by simp)]
      simp
    · have hb := withOffsets_bound rest (off0 + p.data.length) e h
      simp only [List.map_cons, List.flatten_cons]
      rw [byteSlice_block _ _ p.data.length _ _ rfl (by omega)]
      have e1 : e.1 - off0 - p.data.length = e.1 - (off0 + p.data.length) := by
        omega
      have e2 : e.1 - off0 + e.2.2.data.length - p.data.length
          = e.1 - (off0 + p.data.length) + e.2.2.data.length := by
        omega
      rw [e1, e2]
      exact ih (off0 + p.data.length) e h

theorem sum_indicator (keys : List Nat) (b : Nat) (hnd : keys.Nodup)
    (hb : b ∈ keys) :
    (keys.map fun a => if b = a then 1 else 0).sum = 1 := by
  induction keys with
  | nil => simp at hb
  | cons k rest ih =>
    obtain ⟨h1, h2⟩ := List.nodup_cons.mp hnd
    rcases List.mem_cons.mp hb with h | h
    · subst h
      have hz : (rest.map fun a => if b = a then 1 else 0).sum = 0 := by
        apply List.sum_eq_zero
        intro x hx
        obtain ⟨a, ha, he⟩ := List.mem_map.mp hx
        rw [← he, if_neg (fun hba => h1 (by rw [hba]; exact ha))]
      simp [hz]
    · have hk : b ≠ k := fun he => h1 (he ▸ h)
      simp only [List.map_cons, List.sum_cons, if_neg hk]
      rw [ih h2 h]

theorem sum_countApid (keys : List Nat) (st : List (Nat × Packet))
    (hnd : keys.Nodup) (hsub : ∀ e ∈ st, e.2.header.apid ∈ keys) :
    (keys.map fun a => countApid a st).sum = st.length := by
  induction st with
  | nil => simp [countApid]
  | cons x rest ih =>
    have hc : ∀ a, countApid a (x :: rest)
        = (if x.2.header.apid = a then 1 else 0) + countApid a rest := by
      intro a
      unfold countApid
      rw [List.filter_cons]
      by_cases h : x.2.header.apid = a
      · simp [h, Nat.add_comm]
      · simp [h]
    have hfun : (fun a => countApid a (x :: rest))
        = fun a => (if x.2.header.apid = a then 1 else 0) + countApid a rest :=
      funext hc
    rw [hfun, List.sum_map_add, sum_indicator keys _ hnd (hsub x (by simp)),
      ih fun e he => hsub e (by simp [he])]
    simp [Nat.add_comm]

theorem inv_new (sat : SatSpec) (product : ProductSpec) (time : Nat) :
    Inv sat product time (RdrData.new sat product time) := by
  refine ⟨rfl, ?_, ?_, List.nodup_nil, ?_, fun a => rfl, rfl, ?_⟩
  · show (product.apids.map fun a => (a.num, ApidInfo.new a.name a.num)).map
        Prod.fst = product.apids.map ApidSpec.num
    rw [List.map_map]
    rfl
  · intro a i hl
    have hm := lookupA_mem hl
    obtain ⟨sp, hsp, he⟩ := List.mem_map.mp hm
    have h1 : sp.num = a := congrArg Prod.fst he
    have h2 : ApidInfo.new sp.name sp.num = i := congrArg Prod.snd he
    refine ⟨?_, ?_, ?_, sp, hsp, h1, ?_⟩
    · rw [← h2]
      exact h1
    · rw [← h2]
      rfl
    · rw [← h2]
      rfl
    · rw [← h2]
      rfl
  · intro k hk
    simp [RdrData.new] at hk
  · intro e he
    simp [RdrData.new] at he

theorem inv_add_packet {sat : SatSpec} {product : ProductSpec} {time : Nat}
    {d d' : RdrData} {t : Nat} {p : Packet}
    (hinv : Inv sat product time d)
    (h : d.add_packet t p = (d', Except.ok ())) :
    Inv sat product time d' ∧ d'.ap_storage = d.ap_storage ++ [(t, p)] := by
  unfold RdrData.add_packet at h
  split at h
  · exact absurd (congrArg Prod.snd h) (by simp)
  · rename_i info hl
    split at h
    · split at h
      · rename_i hlen ht
        rw [Prod.mk.injEq] at h
        obtain ⟨hd, -⟩ := h
        subst hd
        refine ⟨⟨hinv.hdr, (updateA_keys _ _ _).trans hinv.keys, ?_, ?_, ?_, ?_,
          ?_, ?_⟩, rfl⟩
        · intro a i hli
          dsimp only at hli
          rw [lookupA_updateA] at hli
          obtain ⟨hv, hrec, hres, sp, hsp, hnum, hname⟩ :=
            hinv.info p.header.apid info hl
          by_cases ha : a = p.header.apid
          · rw [if_pos ha, hl, Option.map_some'] at hli
            injection hli with hi
            subst hi
            refine ⟨?_, ?_, ?_, sp, hsp, by rw [hnum, ha], ?_⟩
            · show info.value = a
              rw [hv, ha]
            · show info.pkts_received + 1 = countApid a (d.ap_storage ++ [(t, p)])
              rw [countApid_append, if_pos ha.symm, hrec, ha]
            · show info.pkts_reserved + 1 = countApid a (d.ap_storage ++ [(t, p)])
              rw [countApid_append, if_pos ha.symm, hres, ha]
            · exact hname
          · rw [if_neg ha] at hli
            obtain ⟨hv2, hrec2, hres2, sp2, hsp2, hnum2, hname2⟩ :=
              hinv.info a i hli
            refine ⟨hv2, ?_, ?_, sp2, hsp2, hnum2, hname2⟩
            · show i.pkts_received = countApid a (d.ap_storage ++ [(t, p)])
              rw [countApid_append, if_neg (fun hpa => ha hpa.symm), Nat.add_zero, hrec2]
            · show i.pkts_reserved = countApid a (d.ap_storage ++ [(t, p)])
              rw [countApid_append, if_neg (fun hpa => ha hpa.symm), Nat.add_zero, hres2]
        · show ((insertA d.trackers p.header.apid _).map Prod.fst).Nodup
          rw [insertA_keys]
          by_cases hm : p.header.apid ∈ d.trackers.map Prod.fst
          · rw [if_pos hm]
            exact hinv.tkeys
          · rw [if_neg hm]
            refine List.nodup_append.mpr ⟨hinv.tkeys, List.nodup_singleton _, ?_⟩
            intro a ha hb
            rw [List.mem_singleton] at hb
            exact hm (hb ▸ ha)
        · intro k hk
          dsimp only at hk ⊢
          rw [updateA_keys]
          rw [insertA_keys] at hk
          by_cases hm : p.header.apid ∈ d.trackers.map Prod.fst
          · rw [if_pos hm] at hk
            exact hinv.tsub k hk
          · rw [if_neg hm] at hk
            rcases List.mem_append.mp hk with hk2 | hk2
            · exact hinv.tsub k hk2
            · rw [List.mem_singleton] at hk2
              subst hk2
              exact lookupA_mem_keys hl
        · intro a
          dsimp only
          rw [lookupA_insertA]
          by_cases ha : a = p.header.apid
          · subst ha
            rw [if_pos rfl, Option.getD_some, derivedTrackers_append, if_pos rfl,
              hinv.trk p.header.apid, hinv.off]
            rfl
          · rw [if_neg ha, hinv.trk a, derivedTrackers_append,
              if_neg (fun hpa => ha hpa.symm)]
            simp
        · show d.ap_storage_offset + p.data.length
            = storageSize (d.ap_storage ++ [(t, p)])
          rw [storageSize_append, hinv.off]
        · intro e he
          dsimp only at he
          rcases List.mem_append.mp he with h2 | h2
          · exact hinv.stor e h2
          · rw [List.mem_singleton] at h2
            subst h2
            exact ⟨hlen, ht⟩
      · exact absurd (congrArg Prod.snd h) (by simp)
    · exact absurd (congrArg Prod.snd h) (by simp)

theorem addAllOk_inv {sat : SatSpec} {product : ProductSpec} {time : Nat} :
    ∀ (pkts : List (Nat × Packet)) (d0 d : RdrData),
      Inv sat product time d0 → addAllOk d0 pkts = some d →
      Inv sat product time d ∧ d.ap_storage = d0.ap_storage ++ pkts := by
  intro pkts
  induction pkts with
  | nil =>
    intro d0 d h0 hr
    injection hr with he
    subst he
    exact ⟨h0, by simp⟩
  | cons x rest ih =>
    intro d0 d h0 hr
    obtain ⟨t, p⟩ := x
    unfold addAllOk at hr
    split at hr
    · rename_i d2 u heq
      cases u
      obtain ⟨h2, hs2⟩ := inv_add_packet h0 heq
      obtain ⟨h3, hs3⟩ := ih d2 d h2 hr
      refine ⟨h3, ?_⟩
      rw [hs3, hs2, List.append_assoc]
      rfl
    · exact Option.noConfusion hr

theorem flatten_map_length (f : α → List Nat) (n : Nat) :
    ∀ l : List α, (∀ x ∈ l, (f x).length = n) →
      ((l.map f).flatten).length = n * l.length := by
  intro l
  induction l with
  | nil => intro h; simp
  | cons x rest ih =>
    intro h
    simp only [List.map_cons, List.flatten_cons, List.length_append,
      List.length_cons]
    rw [h x (by simp), ih fun y hy => h y (by simp [hy])]
    ring

theorem listChunksFuel_ext (n : Nat) :
    ∀ (f1 : Nat) (l : List α) (f2 : Nat), l.length ≤ f1 → l.length ≤ f2 →
      listChunksFuel n f1 l = listChunksFuel n f2 l := by
  intro f1
  induction f1 with
  | zero =>
    intro l f2 h1 h2
    have : l = [] := List.eq_nil_of_length_eq_zero (Nat.le_zero.mp h1)
    subst this
    cases f2 <;> rfl
  | succ f ih =>
    intro l f2 h1 h2
    cases l with
    | nil => cases f2 <;> rfl
    | cons x xs =>
      cases f2 with
      | zero => simp at h2
      | succ f2' =>
        show (x :: xs.take (n - 1)) :: listChunksFuel n f (xs.drop (n - 1))
          = (x :: xs.take (n - 1)) :: listChunksFuel n f2' (xs.drop (n - 1))
        congr 1
        apply ih
        · simp only [List.length_drop]
          simp only [List.length_cons] at h1
          omega
        · simp only [List.length_drop]
          simp only [List.length_cons] at h2
          omega

theorem listChunks_cons_block (n : Nat) (c r : List Nat) (hc : c.length = n)
    (hn : 0 < n) : listChunks n (c ++ r) = c :: listChunks n r := by
  cases c with
  | nil => rw [← hc] at hn; simp at hn
  | cons x xs =>
    unfold listChunks
    have hxs : xs.length = n - 1 := by
      simp only [List.length_cons] at hc
      omega
    have hlen : ((x :: xs) ++ r).length = n + r.length := by
      simp only [List.length_append, List.length_cons]
      omega
    rw [hlen, show n + r.length = (n - 1 + r.length) + 1 from by omega]
    show (x :: (xs ++ r).take (n - 1))
        :: listChunksFuel n (n - 1 + r.length) ((xs ++ r).drop (n - 1))
      = (x :: xs) :: listChunksFuel n r.length r
    rw [← hxs, List.take_left, List.drop_left]
    congr 1
    exact listChunksFuel_ext n _ r _ (by omega) (le_refl _)

theorem listChunks_flatten (n : Nat) (hn : 0 < n) :
    ∀ bs : List (List Nat), (∀ b ∈ bs, b.length = n) →
      listChunks n bs.flatten = bs := by
  intro bs
  induction bs with
  | nil => intro h; rfl
  | cons b rest ih =>
    intro h
    rw [List.flatten_cons, listChunks_cons_block n b rest.flatten
      (h b (by simp)) hn, ih fun y hy => h y (by simp [hy])]

theorem decodeApidChunks_map :
    ∀ l : List ApidInfo, (∀ i ∈ l, i.Valid) →
      decodeApidChunks (l.map ApidInfo.as_bytes) = .ok l := by
  intro l
  induction l with
  | nil => intro h; rfl
  | cons i rest ih =>
    intro h
    show decodeApidChunks (i.as_bytes :: rest.map ApidInfo.as_bytes) = _
    unfold decodeApidChunks
    rw [if_neg (by rw [apidInfo_as_bytes_length]; exact by norm_num [ApidInfo.LEN]),
      apidInfo_roundtrip (h i (by simp)), ih fun j hj => h j (by simp [hj])]
    rfl

theorem decodeTrackerChunks_map :
    ∀ l : List PacketTracker, (∀ t ∈ l, t.Valid) →
      decodeTrackerChunks (l.map PacketTracker.as_bytes) = .ok l := by
  intro l
  induction l with
  | nil => intro h; rfl
  | cons t rest ih =>
    intro h
    show decodeTrackerChunks (t.as_bytes :: rest.map PacketTracker.as_bytes) = _
    unfold decodeTrackerChunks
    rw [if_neg (by rw [packetTracker_as_bytes_length]; decide),
      packetTracker_roundtrip (h t (by simp)), ih fun s hs => h s (by simp [hs])]
    rfl

theorem lookupA_some_of_mem [DecidableEq κ] {l : List (κ × α)} {k : κ}
    (h : k ∈ l.map Prod.fst) : ∃ v, lookupA l k = some v := by
  induction l with
  | nil => simp at h
  | cons f rest ih =>
    obtain ⟨k', v'⟩ := f
    by_cases hk : k' = k
    · exact ⟨v', by unfold lookupA; rw [if_pos hk]⟩
    · have : k ∈ rest.map Prod.fst := by
        rcases List.mem_cons.mp h with h2 | h2
        · exact absurd h2.symm hk
        · exact h2
      obtain ⟨v, hv⟩ := ih this
      exact ⟨v, by unfold lookupA; rw [if_neg hk]; exact hv⟩

theorem assignIdx_map_value (m : List (Nat × ApidInfo))
    (hval : ∀ a i, lookupA m a = some i → i.value = a) :
    ∀ (apids : List Nat) (off : Nat), (∀ a ∈ apids, a ∈ m.map Prod.fst) →
      (RdrData.assignIdx off apids m).map ApidInfo.value = apids := by
  intro apids
  induction apids with
  | nil => intro off h; rfl
  | cons a rest ih =>
    intro off h
    obtain ⟨i, hi⟩ := lookupA_some_of_mem (h a (by simp))
    unfold RdrData.assignIdx
    rw [hi]
    simp only [List.map_cons]
    rw [ih _ fun b hb => h b (by simp [hb])]
    congr 1
    exact hval a i hi

theorem assignIdx_map_received (m : List (Nat × ApidInfo)) (g : Nat → Nat)
    (hg : ∀ a i, lookupA m a = some i → i.pkts_received = g a) :
    ∀ (apids : List Nat) (off : Nat), (∀ a ∈ apids, a ∈ m.map Prod.fst) →
      (RdrData.assignIdx off apids m).map ApidInfo.pkts_received = apids.map g := by
  intro apids
  induction apids with
  | nil => intro off h; rfl
  | cons a rest ih =>
    intro off h
    obtain ⟨i, hi⟩ := lookupA_some_of_mem (h a (by simp))
    unfold RdrData.assignIdx
    rw [hi]
    simp only [List.map_cons]
    rw [ih _ fun b hb => h b (by simp [hb])]
    congr 1
    exact hg a i hi

theorem assignIdx_map_idx (m : List (Nat × ApidInfo)) (g : Nat → Nat)
    (hg : ∀ a i, lookupA m a = some i → i.pkts_received = g a) :
    ∀ (apids : List Nat) (off : Nat), (∀ a ∈ apids, a ∈ m.map Prod.fst) →
      (RdrData.assignIdx off apids m).map ApidInfo.pkt_tracker_start_idx
        = prefixSumsFrom off (apids.map g) := by
  intro apids
  induction apids with
  | nil => intro off h; rfl
  | cons a rest ih =>
    intro off h
    obtain ⟨i, hi⟩ := lookupA_some_of_mem (h a (by simp))
    unfold RdrData.assignIdx
    rw [hi]
    simp only [List.map_cons]
    unfold prefixSumsFrom
    rw [ih _ fun b hb => h b (by simp [hb]), hg a i hi]

theorem assignIdx_mem (m : List (Nat × ApidInfo)) :
    ∀ (apids : List Nat) (off : Nat) (i : ApidInfo),
      i ∈ RdrData.assignIdx off apids m →
      ∃ a j, lookupA m a = some j ∧ i.name = j.name ∧ i.value = j.value ∧
        i.pkts_reserved = j.pkts_reserved ∧ i.pkts_received = j.pkts_received := by
  intro apids
  induction apids with
  | nil => intro off i h; simp [RdrData.assignIdx] at h
  | cons a rest ih =>
    intro off i h
    unfold RdrData.assignIdx at h
    cases hl : lookupA m a with
    | none =>
      rw [hl] at h
      exact ih _ i h
    | some j =>
      rw [hl] at h
      rcases List.mem_cons.mp h with h2 | h2
      · subst h2
        exact ⟨a, j, hl, rfl, rfl, rfl, rfl⟩
      · exact ih _ i h2

theorem prefixSumsFrom_le :
    ∀ (l : List Nat) (acc x : Nat), x ∈ prefixSumsFrom acc l → x ≤ acc + l.sum := by
  intro l
  induction l with
  | nil => intro acc x h; simp [prefixSumsFrom] at h
  | cons y rest ih =>
    intro acc x h
    unfold prefixSumsFrom at h
    rcases List.mem_cons.mp h with h2 | h2
    · subst h2
      simp
    · have := ih (acc + y) x h2
      simp only [List.sum_cons]
      omega

theorem withOffsets_mem :
    ∀ (st : List (Nat × Packet)) (off : Nat) (e : Nat × Nat × Packet),
      e ∈ withOffsetsFrom off st → e.2 ∈ st := by
  intro st
  induction st with
  | nil => intro off e h; simp [withOffsetsFrom] at h
  | cons y rest ih =>
    intro off e h
    obtain ⟨t, p⟩ := y
    unfold withOffsetsFrom at h
    rcases List.mem_cons.mp h with h2 | h2
    · subst h2
      simp
    · exact List.mem_cons.mpr (Or.inr (ih _ e h2))

theorem derivedTrackers_mem {a : Nat} {st : List (Nat × Packet)}
    {tr : PacketTracker} (h : tr ∈ derivedTrackers a st) :
    ∃ e, e ∈ withOffsetsFrom 0 st ∧ e.2.2.header.apid = a ∧
      tr = mkTracker e.1 e.2.1 e.2.2 := by
  unfold derivedTrackers at h
  obtain ⟨e, he, hif⟩ := List.mem_filterMap.mp h
  by_cases hp : e.2.2.header.apid = a
  · rw [if_pos hp] at hif
    injection hif with hif
    exact ⟨e, he, hp, hif.symm⟩
  · rw [if_neg hp] at hif
    exact Option.noConfusion hif

theorem countApid_pos {st : List (Nat × Packet)} {e : Nat × Packet}
    (he : e ∈ st) : 0 < countApid e.2.header.apid st := by
  have hm : e ∈ st.filter fun x => x.2.header.apid == e.2.header.apid :=
    List.mem_filter.mpr ⟨he, by simp⟩
  exact List.length_pos.mpr (List.ne_nil_of_mem hm)

theorem storage_apids_mem_trackers {trs : List (Nat × List PacketTracker)}
    {st : List (Nat × Packet)}
    (htrk : ∀ a, (lookupA trs a).getD [] = derivedTrackers a st) :
    ∀ e ∈ st, e.2.header.apid ∈ trs.map Prod.fst := by
  intro e he
  by_contra hm
  have hnone := lookupA_none hm
  have h0 := htrk e.2.header.apid
  rw [hnone] at h0
  have hlen := congrArg List.length h0
  rw [derivedTrackers_length] at hlen
  have := countApid_pos he
  simp at hlen
  omega

theorem trackers_sum_count {trs : List (Nat × List PacketTracker)}
    {st : List (Nat × Packet)} (hnd : (trs.map Prod.fst).Nodup)
    (htrk : ∀ a, (lookupA trs a).getD [] = derivedTrackers a st) :
    (trs.map fun e => e.2.length).sum
      = (trs.map fun e => countApid e.1 st).sum := by
  congr 1
  apply List.map_congr_left
  intro e he
  obtain ⟨k, ls⟩ := e
  have hl : lookupA trs k = some ls := lookupA_eq_of_mem_nodup hnd he
  have h0 := htrk k
  rw [hl, Option.getD_some] at h0
  rw [h0, derivedTrackers_length]

theorem storageBytes_length (st : List (Nat × Packet)) :
    ((st.map fun e => e.2.data).flatten).length = storageSize st := by
  rw [List.length_flatten, List.map_map]
  rfl

theorem commonRdr_decode (h : StaticHeader) (ais : List ApidInfo)
    (ts : List PacketTracker) (S : List Nat) (hh : h.Valid)
    (hai : ∀ i ∈ ais, i.Valid) (hts : ∀ t ∈ ts, t.Valid)
    (ho1 : h.apid_list_offset = 72)
    (ho2 : h.pkt_tracker_offset = 72 + 32 * ais.length)
    (ho3 : h.ap_storage_offset = h.pkt_tracker_offset + 24 * ts.length) :
    CommonRdr.from_bytes (h.as_bytes ++
        ((ais.map ApidInfo.as_bytes).flatten ++
          ((ts.map PacketTracker.as_bytes).flatten ++ S)))
      = some (.ok ⟨h, ais, ts⟩) := by
  have hA : ((ais.map ApidInfo.as_bytes).flatten).length = 32 * ais.length :=
    flatten_map_length _ 32 ais fun x _ => apidInfo_as_bytes_length x
  have hT : ((ts.map PacketTracker.as_bytes).flatten).length = 24 * ts.length :=
    flatten_map_length _ 24 ts fun x _ => packetTracker_as_bytes_length x
  have hH : h.as_bytes.length = 72 := staticHeader_as_bytes_length h
  have hblen : (h.as_bytes ++
        ((ais.map ApidInfo.as_bytes).flatten ++
          ((ts.map PacketTracker.as_bytes).flatten ++ S))).length
      = 72 + (32 * ais.length + (24 * ts.length + S.length)) := by
    simp [hH, hA, hT]
  have hc1 : ¬((h.as_bytes ++
        ((ais.map ApidInfo.as_bytes).flatten ++
          ((ts.map PacketTracker.as_bytes).flatten ++ S))).length
      < StaticHeader.LEN) := by
    rw [hblen]
    simp only [StaticHeader.LEN]
    omega
  have htake : (h.as_bytes ++
        ((ais.map ApidInfo.as_bytes).flatten ++
          ((ts.map PacketTracker.as_bytes).flatten ++ S))).take StaticHeader.LEN
      = h.as_bytes := by
    simp only [StaticHeader.LEN]
    rw [show (72 : Nat) = h.as_bytes.length from hH.symm]
    exact List.take_left _ _
  have hc2 : ¬(h.apid_list_offset ≠ StaticHeader.LEN) := by
    simp [ho1, StaticHeader.LEN]
  have hc3 : ¬(h.pkt_tracker_offset < StaticHeader.LEN ∨
      (h.as_bytes ++
        ((ais.map ApidInfo.as_bytes).flatten ++
          ((ts.map PacketTracker.as_bytes).flatten ++ S))).length
        < h.pkt_tracker_offset) := by
    rw [hblen, ho2]
    simp only [StaticHeader.LEN]
    omega
  have hsliceA : byteSlice (h.as_bytes ++
        ((ais.map ApidInfo.as_bytes).flatten ++
          ((ts.map PacketTracker.as_bytes).flatten ++ S)))
        StaticHeader.LEN h.pkt_tracker_offset
      = (ais.map ApidInfo.as_bytes).flatten := by
    simp only [StaticHeader.LEN]
    rw [ho2, byteSlice_block _ _ 72 _ _ hH (le_refl 72)]
    have e1 : 72 - 72 = 0 := rfl
    have e2 : 72 + 32 * ais.length - 72 = 32 * ais.length := by omega
    rw [e1, e2]
    exact byteSlice_exact _ _ _ hA
  have hchunksA : listChunks ApidInfo.LEN ((ais.map ApidInfo.as_bytes).flatten)
      = ais.map ApidInfo.as_bytes := by
    simp only [ApidInfo.LEN]
    refine listChunks_flatten 32 (by norm_num) _ ?_
    intro b hb
    obtain ⟨i, hi, he⟩ := List.mem_map.mp hb
    rw [← he]
    exact apidInfo_as_bytes_length i
  have hdecA : decodeApidChunks (ais.map ApidInfo.as_bytes) = .ok ais :=
    decodeApidChunks_map ais hai
  have hc4 : ¬(h.ap_storage_offset < h.pkt_tracker_offset ∨
      (h.as_bytes ++
        ((ais.map ApidInfo.as_bytes).flatten ++
          ((ts.map PacketTracker.as_bytes).flatten ++ S))).length
        < h.ap_storage_offset) := by
    rw [hblen, ho3, ho2]
    omega
  have hsliceT : byteSlice (h.as_bytes ++
        ((ais.map ApidInfo.as_bytes).flatten ++
          ((ts.map PacketTracker.as_bytes).flatten ++ S)))
        h.pkt_tracker_offset h.ap_storage_offset
      = (ts.map PacketTracker.as_bytes).flatten := by
    rw [ho3, ho2, byteSlice_block _ _ 72 _ _ hH (by omega)]
    have e1 : 72 + 32 * ais.length - 72 = 32 * ais.length := by omega
    have e2 : 72 + 32 * ais.length + 24 * ts.length - 72
        = 32 * ais.length + 24 * ts.length := by omega
    rw [e1, e2, byteSlice_block _ _ (32 * ais.length) _ _ hA (le_refl _)]
    have e3 : 32 * ais.length - 32 * ais.length = 0 := by omega
    have e4 : 32 * ais.length + 24 * ts.length - 32 * ais.length
        = 24 * ts.length := by omega
    rw [e3, e4]
    exact byteSlice_exact _ _ _ hT
  have hchunksT : listChunks PacketTracker.LEN
        ((ts.map PacketTracker.as_bytes).flatten)
      = ts.map PacketTracker.as_bytes := by
    simp only [PacketTracker.LEN]
    refine listChunks_flatten 24 (by norm_num) _ ?_
    intro b hb
    obtain ⟨t, ht, he⟩ := List.mem_map.mp hb
    rw [← he]
    exact packetTracker_as_bytes_length t
  have hdecT : decodeTrackerChunks (ts.map PacketTracker.as_bytes) = .ok ts :=
    decodeTrackerChunks_map ts hts
  unfold CommonRdr.from_bytes
  rw [if_neg hc1, htake, staticHeader_roundtrip hh]
  dsimp only
  rw [if_neg hc2, if_neg hc3, hsliceA, hchunksA, hdecA]
  dsimp only
  rw [if_neg hc4, hsliceT, hchunksT, hdecT]

theorem compile_run_facts (sat : SatSpec) (product : ProductSpec) (time : Nat)
    (pkts : List (Nat × Packet)) (d : RdrData)
    (hrun : addAllOk (RdrData.new sat product time) pkts = some d)
    (hnd : (product.apids.map ApidSpec.num).Nodup)
    (happ : ∀ sp ∈ product.apids, sp.num < 2 ^ 32 ∧ validStr sp.name 16)
    (hsat : validStr sat.short_name 4)
    (hsen : validStr product.sensor 16)
    (htyp : validStr product.type_id 16)
    (hbound : time + product.gran_len < 2 ^ 64)
    (hcnt : 72 + product.apids.length * 32 + pkts.length * 24 < 2 ^ 32)
    (hsz : storageSize pkts < 2 ^ 31)
    (hseq : ∀ e ∈ pkts, e.2.header.sequence_id < 2 ^ 31) :
    d.compile = .ok (d.finalHeader.as_bytes ++
        (d.compiledApidList.map ApidInfo.as_bytes).flatten ++
        (d.trackerList.map PacketTracker.as_bytes).flatten ++ d.storageBytes) ∧
    CommonRdr.from_bytes (d.finalHeader.as_bytes ++
        (d.compiledApidList.map ApidInfo.as_bytes).flatten ++
        (d.trackerList.map PacketTracker.as_bytes).flatten ++ d.storageBytes)
      = some (.ok ⟨d.finalHeader, d.compiledApidList, d.trackerList⟩) ∧
    d.finalHeader.apid_list_offset = 72 ∧
    d.finalHeader.num_apids = product.apids.length ∧
    d.finalHeader.pkt_tracker_offset = 72 + 32 * product.apids.length ∧
    d.finalHeader.ap_storage_offset
      = 72 + 32 * product.apids.length + 24 * pkts.length ∧
    d.finalHeader.next_pkt_position = storageSize pkts ∧
    d.compiledApidList.map ApidInfo.value = d.sortedApids ∧
    d.compiledApidList.map ApidInfo.pkts_received
      = d.sortedApids.map (fun a => countApid a pkts) ∧
    d.compiledApidList.map ApidInfo.pkt_tracker_start_idx
      = prefixSumsFrom 0 (d.sortedApids.map (fun a => countApid a pkts)) ∧
    (∀ i ∈ d.compiledApidList, ∃ j, lookupA d.apid_list i.value = some j ∧
      i.name = j.name ∧ i.pkts_reserved = j.pkts_reserved ∧
      i.pkts_received = j.pkts_received) ∧
    d.trackerList = (d.sortedApids.map fun a => derivedTrackers a pkts).flatten ∧
    (d.sortedApids.map fun a => countApid a pkts).sum = pkts.length ∧
    (d.finalHeader.as_bytes ++
        (d.compiledApidList.map ApidInfo.as_bytes).flatten ++
        (d.trackerList.map PacketTracker.as_bytes).flatten ++
        d.storageBytes).drop d.finalHeader.ap_storage_offset
      = (pkts.map fun e => e.2.data).flatten ∧
    (d.finalHeader.as_bytes ++
        (d.compiledApidList.map ApidInfo.as_bytes).flatten ++
        (d.trackerList.map PacketTracker.as_bytes).flatten ++
        d.storageBytes).length
      = d.finalHeader.ap_storage_offset + storageSize pkts ∧
    ∀ e ∈ withOffsetsFrom 0 pkts,
      byteSlice (d.finalHeader.as_bytes ++
          (d.compiledApidList.map ApidInfo.as_bytes).flatten ++
          (d.trackerList.map PacketTracker.as_bytes).flatten ++ d.storageBytes)
        (d.finalHeader.ap_storage_offset + e.1)
        (d.finalHeader.ap_storage_offset + e.1 + e.2.2.data.length)
      = e.2.2.data := by
  obtain ⟨hinv, hst0⟩ := addAllOk_inv pkts (RdrData.new sat product time) d
    (inv_new sat product time) hrun
  have hst : d.ap_storage = pkts := hst0.trans rfl
  have hkeys := hinv.keys
  have hknd : (d.apid_list.map Prod.fst).Nodup := by rw [hkeys]; exact hnd
  have hperm : List.Perm d.sortedApids (d.apid_list.map Prod.fst) :=
    List.perm_insertionSort _ _
  have hsand : d.sortedApids.Nodup := hperm.nodup_iff.mpr hknd
  have hmem : ∀ a ∈ d.sortedApids, a ∈ d.apid_list.map Prod.fst :=
    fun a ha => hperm.mem_iff.mp ha
  have hval : ∀ a i, lookupA d.apid_list a = some i → i.value = a :=
    fun a i hi => (hinv.info a i hi).1
  have hg : ∀ a i, lookupA d.apid_list a = some i →
      i.pkts_received = countApid a pkts := by
    intro a i hi
    have h0 := (hinv.info a i hi).2.1
    rwa [hst] at h0
  have htrk : ∀ a, (lookupA d.trackers a).getD [] = derivedTrackers a pkts := by
    intro a
    have h0 := hinv.trk a
    rwa [hst] at h0
  have hmapv : d.compiledApidList.map ApidInfo.value = d.sortedApids :=
    assignIdx_map_value d.apid_list hval d.sortedApids 0 hmem
  have hmapr : d.compiledApidList.map ApidInfo.pkts_received
      = d.sortedApids.map (fun a => countApid a pkts) :=
    assignIdx_map_received d.apid_list _ hg d.sortedApids 0 hmem
  have hmapi : d.compiledApidList.map ApidInfo.pkt_tracker_start_idx
      = prefixSumsFrom 0 (d.sortedApids.map (fun a => countApid a pkts)) :=
    assignIdx_map_idx d.apid_list _ hg d.sortedApids 0 hmem
  have hlenA : d.apid_list.length = product.apids.length := by
    have h0 := congrArg List.length hkeys
    simpa using h0
  have hlenC : d.compiledApidList.length = d.apid_list.length := by
    have h1 := congrArg List.length hmapv
    rw [List.length_map] at h1
    rw [h1, hperm.length_eq, List.length_map]
  have hsub : ∀ e ∈ pkts, e.2.header.apid ∈ d.sortedApids := by
    intro e he
    exact hperm.mem_iff.mpr (hinv.tsub _ (storage_apids_mem_trackers htrk e he))
  have hsum : (d.sortedApids.map fun a => countApid a pkts).sum = pkts.length :=
    sum_countApid _ _ hsand hsub
  have htrkL : d.trackerList
      = (d.sortedApids.map fun a => derivedTrackers a pkts).flatten := by
    unfold RdrData.trackerList
    congr 1
    exact List.map_congr_left fun a _ => htrk a
  have hlenT : d.trackerList.length = pkts.length := by
    rw [htrkL, List.length_flatten, List.map_map]
    rw [show (d.sortedApids.map (List.length ∘ fun a => derivedTrackers a pkts))
        = d.sortedApids.map fun a => countApid a pkts from
      List.map_congr_left fun a _ => derivedTrackers_length a pkts]
    exact hsum
  have htc : (d.trackers.map fun e => e.2.length).sum = pkts.length := by
    rw [trackers_sum_count hinv.tkeys htrk]
    rw [show (d.trackers.map fun e => countApid e.1 pkts)
        = (d.trackers.map Prod.fst).map (fun k => countApid k pkts) from by
      rw [List.map_map]; rfl]
    exact sum_countApid _ _ hinv.tkeys
      fun e he => storage_apids_mem_trackers htrk e he
  have hhdr := hinv.hdr
  have hf1 : d.finalHeader.apid_list_offset = 72 := by
    show d.header.apid_list_offset = 72
    rw [hhdr]
    rfl
  have hfnum : d.finalHeader.num_apids = product.apids.length := by
    show d.header.num_apids = _
    rw [hhdr]
    rfl
  have hf2 : d.finalHeader.pkt_tracker_offset
      = 72 + 32 * product.apids.length := by
    show d.header.apid_list_offset + d.apid_list.length * ApidInfo.LEN = _
    rw [hhdr, hlenA]
    show 72 + product.apids.length * 32 = _
    ring
  have hf3 : d.finalHeader.ap_storage_offset
      = 72 + 32 * product.apids.length + 24 * pkts.length := by
    show d.header.apid_list_offset + d.apid_list.length * ApidInfo.LEN
        + (d.trackers.map fun e => e.2.length).sum * PacketTracker.LEN = _
    rw [hhdr, hlenA, htc]
    show 72 + product.apids.length * 32 + pkts.length * 24 = _
    ring
  have hf4 : d.finalHeader.next_pkt_position = storageSize pkts := by
    show d.ap_storage_offset = _
    rw [hinv.off, hst]
  have hvh : d.finalHeader.Valid := by
    unfold StaticHeader.Valid
    refine ⟨?_, ?_, ?_, ?_, ?_, ?_, ?_, ?_, ?_, ?_⟩
    · show validStr d.header.satellite 4
      rw [hhdr]
      exact hsat
    · show validStr d.header.sensor 16
      rw [hhdr]
      exact hsen
    · show validStr d.header.type_id 16
      rw [hhdr]
      exact htyp
    · rw [hfnum]
      omega
    · rw [hf1]
      omega
    · rw [hf2]
      omega
    · rw [hf3]
      omega
    · rw [hf4]
      omega
    · show d.header.start_boundary < 2 ^ 64
      rw [hhdr]
      show time < 2 ^ 64
      omega
    · show d.header.end_boundary < 2 ^ 64
      rw [hhdr]
      show time + product.gran_len < 2 ^ 64
      exact hbound
  have hent : ∀ i ∈ d.compiledApidList, ∃ j,
      lookupA d.apid_list i.value = some j ∧ i.name = j.name ∧
      i.pkts_reserved = j.pkts_reserved ∧ i.pkts_received = j.pkts_received := by
    intro i hi
    obtain ⟨a, j, hlj, hn, hv2, hr1, hr2⟩ :=
      assignIdx_mem d.apid_list d.sortedApids 0 i hi
    refine ⟨j, ?_, hn, hr1, hr2⟩
    rw [hv2, hval a j hlj]
    exact hlj
  have hvai : ∀ i ∈ d.compiledApidList, i.Valid := by
    intro i hi
    obtain ⟨a, j, hlj, hn, hv2, hr1, hr2⟩ :=
      assignIdx_mem d.apid_list d.sortedApids 0 i hi
    obtain ⟨hjval, hjrec0, hjres0, sp, hsp, hspnum, hjname⟩ :=
      hinv.info a j hlj
    have hjrec : j.pkts_received = countApid a pkts := by rwa [hst] at hjrec0
    have hjres : j.pkts_reserved = countApid a pkts := by rwa [hst] at hjres0
    have hca : countApid a pkts ≤ pkts.length := List.length_filter_le _ _
    unfold ApidInfo.Valid
    refine ⟨?_, ?_, ?_, ?_, ?_⟩
    · rw [hn, hjname]
      exact (happ sp hsp).2
    · rw [hv2, hjval, ← hspnum]
      exact (happ sp hsp).1
    · have hmm : i.pkt_tracker_start_idx
          ∈ d.compiledApidList.map ApidInfo.pkt_tracker_start_idx :=
        List.mem_map.mpr ⟨i, hi, rfl⟩
      rw [hmapi] at hmm
      have h0 := prefixSumsFrom_le _ 0 _ hmm
      rw [hsum] at h0
      omega
    · rw [hr1, hjres]
      omega
    · rw [hr2, hjrec]
      omega
  have hvts : ∀ tr ∈ d.trackerList, tr.Valid := by
    intro tr htr
    rw [htrkL] at htr
    obtain ⟨l, hl, htrl⟩ := List.mem_flatten.mp htr
    obtain ⟨a, ha, hla⟩ := List.mem_map.mp hl
    rw [← hla] at htrl
    obtain ⟨e, he, hea, htre⟩ := derivedTrackers_mem htrl
    have hmem2 : e.2 ∈ pkts := withOffsets_mem pkts 0 e he
    have hb := withOffsets_bound pkts 0 e he
    have hse := hseq e.2 hmem2
    have hstor := hinv.stor e.2 (by rw [hst]; exact hmem2)
    subst htre
    unfold PacketTracker.Valid
    refine ⟨?_, ?_, ?_, ?_, ?_, ?_, ?_, ?_, ?_, ?_⟩
    · show -2 ^ 63 ≤ (e.2.1 : Int)
      omega
    · show (e.2.1 : Int) < 2 ^ 63
      omega
    · show -2 ^ 31 ≤ (e.2.2.header.sequence_id : Int)
      omega
    · show (e.2.2.header.sequence_id : Int) < 2 ^ 31
      omega
    · show -2 ^ 31 ≤ (e.2.2.data.length : Int)
      omega
    · show (e.2.2.data.length : Int) < 2 ^ 31
      omega
    · show -2 ^ 31 ≤ (e.1 : Int)
      omega
    · show (e.1 : Int) < 2 ^ 31
      omega
    · show -2 ^ 31 ≤ (0 : Int)
      omega
    · show (0 : Int) < 2 ^ 31
      omega
  have hguard : d.apid_list.length * ApidInfo.LEN < 2 ^ 32 := by
    rw [hlenA]
    show product.apids.length * 32 < 2 ^ 32
    omega
  have hcomp : d.compile = .ok (d.finalHeader.as_bytes ++
      (d.compiledApidList.map ApidInfo.as_bytes).flatten ++
      (d.trackerList.map PacketTracker.as_bytes).flatten ++ d.storageBytes) := by
    unfold RdrData.compile
    rw [if_pos hguard]
  have ho2 : d.finalHeader.pkt_tracker_offset
      = 72 + 32 * d.compiledApidList.length := by
    rw [hf2, hlenC, hlenA]
  have ho3 : d.finalHeader.ap_storage_offset
      = d.finalHeader.pkt_tracker_offset + 24 * d.trackerList.length := by
    rw [hf3, hf2, hlenT]
  have hdec := commonRdr_decode d.finalHeader d.compiledApidList d.trackerList
    d.storageBytes hvh hvai hvts hf1 ho2 ho3
  have hfrom : CommonRdr.from_bytes (d.finalHeader.as_bytes ++
        (d.compiledApidList.map ApidInfo.as_bytes).flatten ++
        (d.trackerList.map PacketTracker.as_bytes).flatten ++ d.storageBytes)
      = some (.ok ⟨d.finalHeader, d.compiledApidList, d.trackerList⟩) := by
    rw [List.append_assoc, List.append_assoc]
    exact hdec
  have hABl : ((d.compiledApidList.map ApidInfo.as_bytes).flatten).length
      = 32 * d.compiledApidList.length :=
    flatten_map_length _ 32 _ fun x _ => apidInfo_as_bytes_length x
  have hTBl : ((d.trackerList.map PacketTracker.as_bytes).flatten).length
      = 24 * d.trackerList.length :=
    flatten_map_length _ 24 _ fun x _ => packetTracker_as_bytes_length x
  have hSBl : d.storageBytes.length = storageSize pkts := by
    show ((d.ap_storage.map fun e => e.2.data).flatten).length = _
    rw [hst]
    exact storageBytes_length pkts
  have hpre : (d.finalHeader.as_bytes ++
        (d.compiledApidList.map ApidInfo.as_bytes).flatten ++
        (d.trackerList.map PacketTracker.as_bytes).flatten).length
      = d.finalHeader.ap_storage_offset := by
    rw [List.length_append, List.length_append, staticHeader_as_bytes_length,
      hABl, hTBl, hlenC, hlenA, hlenT, hf3]
  have hdrop : (d.finalHeader.as_bytes ++
        (d.compiledApidList.map ApidInfo.as_bytes).flatten ++
        (d.trackerList.map PacketTracker.as_bytes).flatten ++
        d.storageBytes).drop d.finalHeader.ap_storage_offset
      = (pkts.map fun e => e.2.data).flatten := by
    rw [← hpre, List.drop_left]
    show (d.ap_storage.map fun e => e.2.data).flatten = _
    rw [hst]
  have hblen2 : (d.finalHeader.as_bytes ++
        (d.compiledApidList.map ApidInfo.as_bytes).flatten ++
        (d.trackerList.map PacketTracker.as_bytes).flatten ++
        d.storageBytes).length
      = d.finalHeader.ap_storage_offset + storageSize pkts := by
    rw [List.length_append, hpre, hSBl]
  have hslice : ∀ e ∈ withOffsetsFrom 0 pkts,
      byteSlice (d.finalHeader.as_bytes ++
          (d.compiledApidList.map ApidInfo.as_bytes).flatten ++
          (d.trackerList.map PacketTracker.as_bytes).flatten ++ d.storageBytes)
        (d.finalHeader.ap_storage_offset + e.1)
        (d.finalHeader.ap_storage_offset + e.1 + e.2.2.data.length)
      = e.2.2.data := by
    intro e he
    rw [byteSlice_block _ _ d.finalHeader.ap_storage_offset _ _ hpre (by omega)]
    have e1 : d.finalHeader.ap_storage_offset + e.1
        - d.finalHeader.ap_storage_offset = e.1 := by omega
    have e2 : d.finalHeader.ap_storage_offset + e.1 + e.2.2.data.length
        - d.finalHeader.ap_storage_offset = e.1 + e.2.2.data.length := by omega
    rw [e1, e2]
    have hs := storage_slice pkts 0 e he
    rw [Nat.sub_zero] at hs
    show byteSlice ((d.ap_storage.map fun x => x.2.data).flatten)
      e.1 (e.1 + e.2.2.data.length) = _
    rw [hst]
    exact hs
  exact ⟨hcomp, hfrom, hf1, hfnum, hf2, hf3, hf4, hmapv, hmapr, hmapi, hent,
    htrkL, hsum, hdrop, hblen2, hslice⟩

/-- C1: for every sequence of timestamped packets accepted without error by
an accumulator built by `RdrData::new` (valid configuration, counts and
sizes inside machine range), decoding the byte stream of `compile()` with
`CommonRdr::from_bytes` succeeds and returns exactly the emitted static
header, APID list and tracker list; the APID list carries the accumulator's
per-APID info in ascending numeric APID order (a sorted permutation of the
APID map's keys) with `pkt_tracker_start_idx` the running sum of the
preceding APIDs' received counts; the trackers are grouped in that same APID
order with per-APID insertion order preserved (one tracker per stored packet
of the APID, in arrival order, as `derivedTrackers` lists them); and the
bytes from `ap_storage_offset` to the end of the stream are the
concatenation of the packets' payloads in arrival order. -/
theorem claim_C1_compile_roundtrip (sat : SatSpec) (product : ProductSpec)
    (time : Nat) (pkts : List (Nat × Packet)) (d : RdrData)
    (hrun : addAllOk (RdrData.new sat product time) pkts = some d)
    (hnd : (product.apids.map ApidSpec.num).Nodup)
    (happ : ∀ sp ∈ product.apids, sp.num < 2 ^ 32 ∧ validStr sp.name 16)
    (hsat : validStr sat.short_name 4)
    (hsen : validStr product.sensor 16)
    (htyp : validStr product.type_id 16)
    (hbound : time + product.gran_len < 2 ^ 64)
    (hcnt : 72 + product.apids.length * 32 + pkts.length * 24 < 2 ^ 32)
    (hsz : storageSize pkts < 2 ^ 31)
    (hseq : ∀ e ∈ pkts, e.2.header.sequence_id < 2 ^ 31) :
    ∃ bytes,
      d.compile = .ok bytes ∧
      CommonRdr.from_bytes bytes
        = some (.ok ⟨d.finalHeader, d.compiledApidList, d.trackerList⟩) ∧
      d.compiledApidList.map ApidInfo.value = d.sortedApids ∧
      List.Sorted (fun a b => a ≤ b) d.sortedApids ∧
      List.Perm d.sortedApids (d.apid_list.map Prod.fst) ∧
      d.compiledApidList.map ApidInfo.pkt_tracker_start_idx
        = prefixSumsFrom 0 (d.compiledApidList.map ApidInfo.pkts_received) ∧
      (∀ i ∈ d.compiledApidList, ∃ j, lookupA d.apid_list i.value = some j ∧
        i.name = j.name ∧ i.pkts_reserved = j.pkts_reserved ∧
        i.pkts_received = j.pkts_received) ∧
      d.trackerList
        = (d.sortedApids.map fun a => derivedTrackers a pkts).flatten ∧
      bytes.drop d.finalHeader.ap_storage_offset
        = (pkts.map fun e => e.2.data).flatten := by
  obtain ⟨hcomp, hfrom, hf1, hfnum, hf2, hf3, hf4, hmapv, hmapr, hmapi, hent,
    htrkL, hsum, hdrop, hblen2, hslice⟩ :=
    compile_run_facts sat product time pkts d hrun hnd happ hsat hsen htyp
      hbound hcnt hsz hseq
  refine ⟨_, hcomp, hfrom, hmapv, List.sorted_insertionSort _ _,
    List.perm_insertionSort _ _, ?_, hent, htrkL, hdrop⟩
  rw [hmapr]
  exact hmapi

set_option maxRecDepth 100000 in
/-- Witness for C1: the theorem applied to a concrete three-packet run over
a product with two APIDs configured out of numeric order. -/
theorem claim_C1_compile_roundtrip_witness :
    ∃ bytes,
      exC1d.compile = .ok bytes ∧
      CommonRdr.from_bytes bytes
        = some (.ok ⟨exC1d.finalHeader, exC1d.compiledApidList,
            exC1d.trackerList⟩) ∧
      exC1d.compiledApidList.map ApidInfo.value = exC1d.sortedApids ∧
      List.Sorted (fun a b => a ≤ b) exC1d.sortedApids ∧
      List.Perm exC1d.sortedApids (exC1d.apid_list.map Prod.fst) ∧
      exC1d.compiledApidList.map ApidInfo.pkt_tracker_start_idx
        = prefixSumsFrom 0
            (exC1d.compiledApidList.map ApidInfo.pkts_received) ∧
      (∀ i ∈ exC1d.compiledApidList, ∃ j,
        lookupA exC1d.apid_list i.value = some j ∧ i.name = j.name ∧
        i.pkts_reserved = j.pkts_reserved ∧
        i.pkts_received = j.pkts_received) ∧
      exC1d.trackerList
        = (exC1d.sortedApids.map fun a => derivedTrackers a exC1pkts).flatten ∧
      bytes.drop exC1d.finalHeader.ap_storage_offset
        = (exC1pkts.map fun e => e.2.data).flatten :=
  claim_C1_compile_roundtrip exSatBase exC1prod 1698019234000000 exC1pkts
    exC1d (by decide) (by decide) (by decide) (by decide) (by decide)
    (by decide) (by decide) (by decide) (by decide) (by decide)

/-- C2: in every byte stream produced by `RdrData::compile` after a fully
accepted packet run (same machine-range side conditions as C1), the emitted
static header satisfies `apid_list_offset = 72`,
`pkt_tracker_offset = 72 + 32 * num_apids`,
`ap_storage_offset = pkt_tracker_offset + 24 * (sum of pkts_received over
the emitted APID list)` and `next_pkt_position = total payload bytes`; the
stream ends exactly `total payload bytes` after `ap_storage_offset`; and
every emitted packet tracker is the tracker of a stored packet whose
`size` bytes at stream position `ap_storage_offset + offset` are that
packet's payload. -/
theorem claim_C2_offset_invariants (sat : SatSpec) (product : ProductSpec)
    (time : Nat) (pkts : List (Nat × Packet)) (d : RdrData)
    (hrun : addAllOk (RdrData.new sat product time) pkts = some d)
    (hnd : (product.apids.map ApidSpec.num).Nodup)
    (happ : ∀ sp ∈ product.apids, sp.num < 2 ^ 32 ∧ validStr sp.name 16)
    (hsat : validStr sat.short_name 4)
    (hsen : validStr product.sensor 16)
    (htyp : validStr product.type_id 16)
    (hbound : time + product.gran_len < 2 ^ 64)
    (hcnt : 72 + product.apids.length * 32 + pkts.length * 24 < 2 ^ 32)
    (hsz : storageSize pkts < 2 ^ 31)
    (hseq : ∀ e ∈ pkts, e.2.header.sequence_id < 2 ^ 31) :
    ∃ bytes,
      d.compile = .ok bytes ∧
      d.finalHeader.apid_list_offset = 72 ∧
      d.finalHeader.pkt_tracker_offset
        = 72 + 32 * d.finalHeader.num_apids ∧
      d.finalHeader.ap_storage_offset = d.finalHeader.pkt_tracker_offset
        + 24 * (d.compiledApidList.map ApidInfo.pkts_received).sum ∧
      d.finalHeader.next_pkt_position = storageSize pkts ∧
      bytes.length = d.finalHeader.ap_storage_offset + storageSize pkts ∧
      ∀ tr ∈ d.trackerList, ∃ e, e ∈ withOffsetsFrom 0 pkts ∧
        tr = mkTracker e.1 e.2.1 e.2.2 ∧
        byteSlice bytes (d.finalHeader.ap_storage_offset + e.1)
          (d.finalHeader.ap_storage_offset + e.1 + e.2.2.data.length)
          = e.2.2.data := by
  obtain ⟨hcomp, hfrom, hf1, hfnum, hf2, hf3, hf4, hmapv, hmapr, hmapi, hent,
    htrkL, hsum, hdrop, hblen2, hslice⟩ :=
    compile_run_facts sat product time pkts d hrun hnd happ hsat hsen htyp
      hbound hcnt hsz hseq
  refine ⟨_, hcomp, hf1, ?_, ?_, hf4, hblen2, ?_⟩
  · rw [hf2, hfnum]
  · rw [hf3, hf2, hmapr, hsum]
  · intro tr htr
    rw [htrkL] at htr
    obtain ⟨l, hl, htrl⟩ := List.mem_flatten.mp htr
    obtain ⟨a, ha, hla⟩ := List.mem_map.mp hl
    rw [← hla] at htrl
    obtain ⟨e, he, hea, htre⟩ := derivedTrackers_mem htrl
    exact ⟨e, he, htre, hslice e he⟩

set_option maxRecDepth 100000 in
/-- Witness for C2: the theorem applied to the same concrete three-packet
run as the C1 witness. -/
theorem claim_C2_offset_invariants_witness :
    ∃ bytes,
      exC1d.compile = .ok bytes ∧
      exC1d.finalHeader.apid_list_offset = 72 ∧
      exC1d.finalHeader.pkt_tracker_offset
        = 72 + 32 * exC1d.finalHeader.num_apids ∧
      exC1d.finalHeader.ap_storage_offset
        = exC1d.finalHeader.pkt_tracker_offset
          + 24 * (exC1d.compiledApidList.map ApidInfo.pkts_received).sum ∧
      exC1d.finalHeader.next_pkt_position = storageSize exC1pkts ∧
      bytes.length
        = exC1d.finalHeader.ap_storage_offset + storageSize exC1pkts ∧
      ∀ tr ∈ exC1d.trackerList, ∃ e, e ∈ withOffsetsFrom 0 exC1pkts ∧
        tr = mkTracker e.1 e.2.1 e.2.2 ∧
        byteSlice bytes (exC1d.finalHeader.ap_storage_offset + e.1)
          (exC1d.finalHeader.ap_storage_offset + e.1 + e.2.2.data.length)
          = e.2.2.data :=
  claim_C2_offset_invariants exSatBase exC1prod 1698019234000000 exC1pkts
    exC1d (by decide) (by decide) (by decide) (by decide) (by decide)
    (by decide) (by decide) (by decide) (by decide) (by decide)

end RdrLib
